import Mathlib

/-!
The program udtcat: a length-framed relay over a reliable transport.

A shallow embedding of `udtcat.c`: the framing functions `send_msg` and
`recv_msg`, the inbound thread `recv_handler`, the outbound loops of
`server_mode` and `client_mode`, and the end of `main`.

The UDT library is an external collaborator. It is represented by a
`Transport`: a state machine that answers every `udt_send` and `udt_recv`
call. The functions of `udtcat.c` are written once, over an arbitrary
transport; a reliable ordered byte stream is one instance.

Every observable action is appended to `World.trace`, so that statements
about which calls were issued, and in which order, can be read off a run.
Blocking is not represented: every call answers.
-/

namespace Udtcat

/-! ## Constants of `udtcat.c` -/

/-- Size of the buffer the outbound loop reads standard input into. -/
def SEND_BUFFER_SIZE : Nat := 1024

/-- Size of the buffer `recv_handler` receives into. -/
def RECV_BUFFER_SIZE : Nat := 1024

/-- Error code of UDT for a lost connection. -/
def UDT_ERR_CONN_LOST : Int := 2001

/-- Value of `EINTR` in `errno.h` on Linux. -/
def EINTR : Int := 4

/-- Value of `EXIT_SUCCESS` in `stdlib.h`. -/
def EXIT_SUCCESS : Int := 0

/-- Value of `EXIT_FAILURE` in `stdlib.h`. -/
def EXIT_FAILURE : Int := 1

/-- Modelled from the spec: the value `udt_send` and `udt_recv` return on
failure. It is declared in `udt-wrapper.h`, which is not part of the sources
at hand. The comments of `send_msg` and `recv_msg` ("-1 otherwise") and the
test `== -1` in `recv_handler` agree with UDT's own value, -1. -/
def UDT_ERROR : Int := -1

/-! ## Bytes and the object representation of `int` -/

/-- One `char` of a buffer. -/
abbrev Byte := Fin 256

/-- Low eight bits of a natural number. -/
def byte_of (n : Nat) : Byte := ⟨n % 256, Nat.mod_lt n (by decide)⟩

/-- The four bytes of a 32-bit two's complement `int`, least significant
first: what `(char*)&msg_len` points to on a little-endian machine. -/
def int_bytes (x : Int) : List Byte :=
  let n := (x % 4294967296).toNat
  [byte_of n, byte_of (n / 256), byte_of (n / 65536), byte_of (n / 16777216)]

/-- The `int` whose object representation is `bs`. -/
def bytes_int (bs : List Byte) : Int :=
  let n : Nat := bs.foldr (fun (b : Byte) (acc : Nat) => b.val + 256 * acc) 0
  if n < 2147483648 then (n : Int) else (n : Int) - 4294967296

/-- Memory after `bytes` were written at the start of `buf`. -/
def store (buf bytes : List Byte) : List Byte :=
  bytes ++ buf.drop bytes.length

/-! ## The transport -/

/-- Answer of the transport to a write. -/
inductive SendResp where
  | error (code : Int)
  | accepted (n : Nat)
  deriving DecidableEq, Repr

/-- Answer of the transport to a read. -/
inductive RecvResp where
  | error (code : Int)
  | data (bytes : List Byte)
  deriving DecidableEq, Repr

/-- The UDT library seen from `udtcat.c`: `send` is given the bytes offered
and the requested length, `recv` the requested length. -/
structure Transport (σ : Type) where
  send : σ → List Byte → Int → SendResp × σ
  recv : σ → Int → RecvResp × σ

/-- The diagnostic lines `udtcat.c` prints on `stderr`. -/
inductive Diag where
  | send_size
  | send_data
  | recv_size
  | recv_data
  | pthread_kill
  | cleanup
  deriving DecidableEq, Repr

/-- Observable actions. `send_msg` and `recv_msg` record the calls the loops
make to the framing functions, with the value returned. -/
inductive Event where
  | udt_send (data : List Byte) (len : Int) (ret : Int)
  | udt_recv (len : Int) (ret : Int)
  | stderr (d : Diag)
  | stdout (bytes : List Byte)
  | print_totals (recv sent : Nat)
  | pthread_kill (ret : Int)
  | read_stdin (ret : Int)
  | udt_close
  | send_msg (chunk : List Byte) (msg_len : Int) (ret : Int)
  | recv_msg (ret : Int)
  deriving DecidableEq, Repr

/-- The global variables of `udtcat.c`, the state of the transport, the code
`udt_getlasterror_code()` would return, and the trace. -/
structure World (σ : Type) where
  net : σ
  udt_lasterror : Int
  last_recv_err_code : Int
  last_send_err_code : Int
  total_recv_bytes : Nat
  total_sent_bytes : Nat
  exit_flag : Bool
  print_st_flag : Bool
  print_on_exit : Bool
  trace : List Event
  deriving DecidableEq, Repr

variable {σ : Type}

/-- Call of `udt_send(socket, buf, len, 0)`: the value returned is `UDT_ERROR`
or the number of bytes accepted, at most `len`. -/
def udt_send (T : Transport σ) (w : World σ) (buf : List Byte) (len : Int) :
    Int × World σ :=
  match T.send w.net (buf.take len.toNat) len with
  | (.error code, net1) =>
    (UDT_ERROR, { w with net := net1, udt_lasterror := code,
                         trace := w.trace ++ [Event.udt_send (buf.take len.toNat) len UDT_ERROR] })
  | (.accepted n, net1) =>
    ((min n len.toNat : Nat),
      { w with net := net1,
               trace := w.trace ++ [Event.udt_send (buf.take len.toNat) len (min n len.toNat : Nat)] })

/-- Call of `udt_recv(socket, buf, len, 0)`: the value returned, the bytes
written at the start of `buf` (at most `len`), and the world after. -/
def udt_recv (T : Transport σ) (w : World σ) (len : Int) :
    Int × List Byte × World σ :=
  match T.recv w.net len with
  | (.error code, net1) =>
    (UDT_ERROR, [], { w with net := net1, udt_lasterror := code,
                             trace := w.trace ++ [Event.udt_recv len UDT_ERROR] })
  | (.data bytes, net1) =>
    (((bytes.take len.toNat).length : Nat), bytes.take len.toNat,
      { w with net := net1,
               trace := w.trace ++ [Event.udt_recv len ((bytes.take len.toNat).length : Nat)] })

/-! ## `send_msg` and `recv_msg` -/

/-- Function `send_msg(socket, msg, msg_len)`. -/
def send_msg (T : Transport σ) (w : World σ) (msg : List Byte) (msg_len : Int) :
    Int × World σ :=
  match udt_send T w (int_bytes msg_len) 4 with
  | (r1, w1) =>
    if r1 = UDT_ERROR then
      let w2 := { w1 with trace := w1.trace ++ [Event.stderr Diag.send_size] }
      (-1, { w2 with last_send_err_code := w2.udt_lasterror })
    else
      match udt_send T w1 msg msg_len with
      | (retval, w2) =>
        if retval = UDT_ERROR then
          let w3 := { w2 with trace := w2.trace ++ [Event.stderr Diag.send_data] }
          (-1, { w3 with last_send_err_code := w3.udt_lasterror })
        else
          (retval, w2)

/-- How a call of `recv_msg` ends: it returns, or its `assert` fails and the
process is aborted. -/
inductive Outcome where
  | ret (v : Int)
  | abort
  deriving DecidableEq, Repr

/-- Function `recv_msg(socket, buffer, buffer_size)`: the outcome, the
contents of `buffer` after the call, and the world after. -/
def recv_msg (T : Transport σ) (w : World σ) (buffer : List Byte) (buffer_size : Int) :
    Outcome × List Byte × World σ :=
  match udt_recv T w 4 with
  | (r1, got1, w1) =>
    if r1 = UDT_ERROR then
      let w2 := { w1 with last_recv_err_code := w1.udt_lasterror }
      if w2.last_recv_err_code ≠ UDT_ERR_CONN_LOST then
        (.ret (-1), buffer, { w2 with trace := w2.trace ++ [Event.stderr Diag.recv_size] })
      else
        (.ret (-1), buffer, w2)
    else
      let msg_len := bytes_int (store (int_bytes 0) got1)
      if msg_len ≤ buffer_size ∧ msg_len ≥ 0 then
        match udt_recv T w1 msg_len with
        | (r2, got2, w2) =>
          if r2 = UDT_ERROR then
            let w3 := { w2 with last_recv_err_code := w2.udt_lasterror }
            if w3.last_recv_err_code ≠ UDT_ERR_CONN_LOST then
              (.ret (-1), store buffer got2,
                { w3 with trace := w3.trace ++ [Event.stderr Diag.recv_data] })
            else
              (.ret r2, store buffer got2, w3)
          else
            (.ret r2, store buffer got2, w2)
      else
        (.abort, buffer, w1)

/-! ## A reliable ordered byte stream -/

/-- The bytes in flight on a reliable ordered connection whose peer closes
once they are drained. A write of `len > 0` bytes appends them all; a read of
`len > 0` bytes delivers the first `len` bytes in flight, or fewer when fewer
are there, and reports a lost connection when none is left. A call with
`len ≤ 0` moves nothing and returns 0. -/
def stream : Transport (List Byte) where
  send s data len :=
    if len ≤ 0 then (.accepted 0, s) else (.accepted data.length, s ++ data)
  recv s len :=
    if len ≤ 0 then (.data [], s)
    else if s = [] then (.error UDT_ERR_CONN_LOST, s)
    else (.data (s.take len.toNat), s.drop len.toNat)

/-- A world at process start over transport state `s`. -/
def World.init (s : σ) : World σ :=
  { net := s, udt_lasterror := 0, last_recv_err_code := -1, last_send_err_code := -1,
    total_recv_bytes := 0, total_sent_bytes := 0, exit_flag := false,
    print_st_flag := false, print_on_exit := false, trace := [] }

/-- The events appended to the trace between world `w` and a later world. -/
def new_events (w later : World σ) : List Event :=
  later.trace.drop w.trace.length

/-- The lengths requested by the transport reads of a trace, in order. -/
def recv_requests (tr : List Event) : List Int :=
  tr.filterMap (fun e => match e with
    | Event.udt_recv len _ => some len
    | _ => none)

/-- The transport writes of a trace, in order: bytes offered and length. -/
def send_requests (tr : List Event) : List (List Byte × Int) :=
  tr.filterMap (fun e => match e with
    | Event.udt_send data len _ => some (data, len)
    | _ => none)

/-- The diagnostic lines of a trace, in order. -/
def diags (tr : List Event) : List Diag :=
  tr.filterMap (fun e => match e with
    | Event.stderr d => some d
    | _ => none)

/-- A scripted transport: every call consumes the next scripted answer. An
exhausted script refuses writes with code 0 and reports a lost connection on
reads. -/
structure Script where
  sends : List SendResp
  recvs : List RecvResp
  deriving DecidableEq, Repr

/-- The transport that answers from a `Script`. -/
def scripted : Transport Script where
  send s _ _ :=
    match s.sends with
    | [] => (SendResp.error 0, s)
    | r :: rest => (r, { s with sends := rest })
  recv s _ :=
    match s.recvs with
    | [] => (RecvResp.error UDT_ERR_CONN_LOST, s)
    | r :: rest => (r, { s with recvs := rest })

/-- A connection on which a unit of length zero arrives and which is then
lost: the size read delivers four zero bytes, the next read fails with
`UDT_ERR_CONN_LOST`. -/
def zero_then_lost : World Script :=
  World.init { sends := [], recvs := [RecvResp.data [0, 0, 0, 0], RecvResp.error 2001] }

/-- A world over the scripted transport whose writes are answered by `sends`. -/
def sending (sends : List SendResp) : World Script :=
  World.init { sends := sends, recvs := [] }

/-- A world over the scripted transport whose reads are answered by `recvs`. -/
def receiving (recvs : List RecvResp) : World Script :=
  World.init { sends := [], recvs := recvs }

/-! ## The inbound thread -/

/-- How a thread or the process ends. -/
inductive Ending where
  | returned
  | exited (code : Int)
  | aborted
  deriving DecidableEq, Repr

/-- The end of the body of the loop of `recv_handler` after a successful
`recv_msg`: the payload is written to standard output and counted. -/
def recv_handler_deliver (w : World σ) (buffer : List Byte) (recved_bytes : Int) : World σ :=
  let w1 := { w with trace := w.trace ++ [Event.stdout (buffer.take recved_bytes.toNat)] }
  if recved_bytes > 0 then
    { w1 with total_recv_bytes :=
        (((w1.total_recv_bytes : Int) + recved_bytes) % 18446744073709551616).toNat }
  else w1

/-- Function `recv_handler`, run for at most `fuel` turns of its loop.
`kill_ret` is the value `pthread_kill(main_tid, SIGTERM)` returns when it is
called. The result is `none` when the loop is still running after `fuel`
turns. -/
def recv_handler (T : Transport σ) (kill_ret : Int) (buffer_size : Int) :
    Nat → World σ → List Byte → Option (Ending × List Byte × World σ)
  | 0, _, _ => none
  | fuel + 1, w, buffer =>
    match recv_msg T w buffer buffer_size with
    | (Outcome.abort, buffer1, w1) => some (Ending.aborted, buffer1, w1)
    | (Outcome.ret recved_bytes, buffer1, w1) =>
      let w2 := { w1 with trace := w1.trace ++ [Event.recv_msg recved_bytes] }
      if recved_bytes = -1 then
        if w2.last_recv_err_code = UDT_ERR_CONN_LOST then
          let w3 := { w2 with trace := w2.trace ++ [Event.pthread_kill kill_ret] }
          if kill_ret ≠ 0 then
            some (Ending.exited EXIT_FAILURE, buffer1,
              { w3 with trace := w3.trace ++ [Event.stderr Diag.pthread_kill] })
          else
            some (Ending.returned, buffer1, w3)
        else
          some (Ending.returned, buffer1, w2)
      else
        recv_handler T kill_ret buffer_size fuel
          (recv_handler_deliver w2 buffer1 recved_bytes) buffer1

/-- The next calls `recv_handler` makes to `recv_msg` from world `w` succeed
and deliver the payloads `ps`, in order, and the call after them fails. -/
def recv_results (T : Transport σ) (buffer_size : Int) :
    List (List Byte) → World σ → List Byte → Prop
  | [], w, buffer => (recv_msg T w buffer buffer_size).1 = Outcome.ret (-1)
  | p :: ps, w, buffer =>
    ∃ r : Int, (recv_msg T w buffer buffer_size).1 = Outcome.ret r ∧ r ≠ -1 ∧
      p = (recv_msg T w buffer buffer_size).2.1.take r.toNat ∧
      recv_results T buffer_size ps
        (recv_handler_deliver
          { (recv_msg T w buffer buffer_size).2.2 with
            trace := (recv_msg T w buffer buffer_size).2.2.trace ++ [Event.recv_msg r] }
          (recv_msg T w buffer buffer_size).2.1 r)
        (recv_msg T w buffer buffer_size).2.1

/-- The bytes written to standard output by a trace, in order. -/
def stdout_bytes : List Event → List Byte
  | [] => []
  | Event.stdout bytes :: tr => bytes ++ stdout_bytes tr
  | _ :: tr => stdout_bytes tr

/-- The values returned by the calls of `recv_msg` in a trace, in order. -/
def recv_msg_rets (tr : List Event) : List Int :=
  tr.filterMap (fun e => match e with
    | Event.recv_msg r => some r
    | _ => none)

/-- The signals sent to the main thread by a trace: the values returned by
the calls of `pthread_kill(main_tid, SIGTERM)`. -/
def kills (tr : List Event) : List Int :=
  tr.filterMap (fun e => match e with
    | Event.pthread_kill r => some r
    | _ => none)

/-! ## Signals and the outbound loops -/

/-- Function `signal_handler`, installed for SIGINT and SIGTERM. -/
def signal_handler (w : World σ) : World σ := { w with exit_flag := true }

/-- Function `siguser1_handler`, installed for SIGUSR1. -/
def siguser1_handler (w : World σ) : World σ := { w with print_st_flag := true }

/-- The signals handled by the main thread between two of its steps: `term`
for SIGINT or SIGTERM, `usr1` for SIGUSR1. -/
structure Sig where
  term : Bool
  usr1 : Bool
  deriving DecidableEq, Repr

/-- No signal. -/
def Sig.none : Sig := { term := false, usr1 := false }

/-- The handlers of the signals of `s` run. -/
def deliver (s : Sig) (w : World σ) : World σ :=
  let w1 := if s.term then signal_handler w else w
  if s.usr1 then siguser1_handler w1 else w1

/-- What `read(STDIN_FILENO, send_buffer, sizeof(send_buffer))` does: it
fails (returns -1, as when a signal interrupts it), or delivers bytes, none
at end of input. -/
inductive ReadRes where
  | fail
  | data (bytes : List Byte)
  deriving DecidableEq, Repr

/-- The value `read` returns and the buffer after it: at most
`SEND_BUFFER_SIZE` bytes are delivered. -/
def read_stdin (r : ReadRes) (send_buffer : List Byte) : Int × List Byte :=
  match r with
  | ReadRes.fail => (-1, send_buffer)
  | ReadRes.data bytes =>
    (((bytes.take SEND_BUFFER_SIZE).length : Nat),
      store send_buffer (bytes.take SEND_BUFFER_SIZE))

/-- What the environment does during one turn of an outbound loop: the
signals handled before the loop condition reads `exit_flag` (while `read` is
pending or before), the result of `read`, the signals handled before the
condition reads `print_st_flag`, and those handled before the body tests
`print_st_flag`. Signals handled later in the body count for the next turn. -/
structure Iter where
  during_read : Sig
  rd : ReadRes
  in_condition : Sig
  before_body : Sig
  deriving DecidableEq, Repr

/-- Function `print_total_sent_recvd_bytes`. -/
def print_total_sent_recvd_bytes (w : World σ) : World σ :=
  { w with trace := w.trace ++ [Event.print_totals w.total_recv_bytes w.total_sent_bytes] }

/-- The end of the body of both outbound loops: `send_msg` is called on the
buffer; unless it returns -1, the value returned is added to
`total_sent_bytes`, an unsigned 64-bit counter. -/
def send_chunk (T : Transport σ) (w : World σ) (send_buffer : List Byte) (len : Int) :
    World σ :=
  match send_msg T w send_buffer len with
  | (sent_bytes, w1) =>
    let w2 := { w1 with trace := w1.trace ++
      [Event.send_msg (send_buffer.take len.toNat) len sent_bytes] }
    if sent_bytes = -1 then w2
    else { w2 with total_sent_bytes :=
      (((w2.total_sent_bytes : Int) + sent_bytes) % 18446744073709551616).toNat }

/-- How the run of an outbound loop over a finite list of turns ends: the
loop was left, or it is about to call `read` again. -/
inductive LoopEnd where
  | left
  | reading
  deriving DecidableEq, Repr

/-- The outbound loop of `server_mode` (lines 372 to 389). -/
def server_loop (T : Transport σ) :
    List Iter → World σ → List Byte → LoopEnd × List Byte × World σ
  | [], w, send_buffer => (LoopEnd.reading, send_buffer, w)
  | it :: rest, w, send_buffer =>
    let w1 := deliver it.during_read w
    let send_buffer_len := (read_stdin it.rd send_buffer).1
    let send_buffer1 := (read_stdin it.rd send_buffer).2
    let w2 := { w1 with trace := w1.trace ++ [Event.read_stdin send_buffer_len] }
    let before_or := decide (send_buffer_len > 0) && !w2.exit_flag
    let w3 := deliver it.in_condition w2
    if before_or || w3.print_st_flag then
      let w4 := deliver it.before_body w3
      if w4.print_st_flag then
        server_loop T rest
          (print_total_sent_recvd_bytes { w4 with print_st_flag := false }) send_buffer1
      else if send_buffer_len < 1 then
        (LoopEnd.left, send_buffer1, w4)
      else
        server_loop T rest (send_chunk T w4 send_buffer1 send_buffer_len) send_buffer1
    else
      (LoopEnd.left, send_buffer1, w3)

/-- The outbound loop of `client_mode` (lines 453 to 469). -/
def client_loop (T : Transport σ) :
    List Iter → World σ → List Byte → LoopEnd × List Byte × World σ
  | [], w, send_buffer => (LoopEnd.reading, send_buffer, w)
  | it :: rest, w, send_buffer =>
    let w1 := deliver it.during_read w
    let buffer_len := (read_stdin it.rd send_buffer).1
    let send_buffer1 := (read_stdin it.rd send_buffer).2
    let w2 := { w1 with trace := w1.trace ++ [Event.read_stdin buffer_len] }
    let before_or := decide (buffer_len > 0) && !w2.exit_flag
    let w3 := deliver it.in_condition w2
    if before_or || w3.print_st_flag then
      let w4 := deliver it.before_body w3
      if w4.print_st_flag then
        let w5 := print_total_sent_recvd_bytes { w4 with print_st_flag := false }
        if buffer_len = EINTR then
          client_loop T rest w5 send_buffer1
        else
          client_loop T rest (send_chunk T w5 send_buffer1 buffer_len) send_buffer1
      else
        client_loop T rest (send_chunk T w4 send_buffer1 buffer_len) send_buffer1
    else
      (LoopEnd.left, send_buffer1, w3)

/-- Function `server_mode` from its outbound loop on (line 372): once the
loop is left the connection is closed and 0 is returned. The result is `none`
when the loop is not left during the turns given. -/
def server_mode (T : Transport σ) (its : List Iter) (w : World σ) (send_buffer : List Byte) :
    Option (Int × World σ) :=
  match server_loop T its w send_buffer with
  | (LoopEnd.left, _, w1) => some (0, { w1 with trace := w1.trace ++ [Event.udt_close] })
  | (LoopEnd.reading, _, _) => none

/-- Function `client_mode` from its outbound loop on (line 453). -/
def client_mode (T : Transport σ) (its : List Iter) (w : World σ) (send_buffer : List Byte) :
    Option (Int × World σ) :=
  match client_loop T its w send_buffer with
  | (LoopEnd.left, _, w1) => some (0, { w1 with trace := w1.trace ++ [Event.udt_close] })
  | (LoopEnd.reading, _, _) => none

/-- Function `main` from the choice of the mode on (line 594), the mode
entering its outbound loop at once: `udt_cleanup` returns `cleanup_ret`, and
the value returned by the mode decides the exit status. -/
def main (T : Transport σ) (listen_flag : Bool) (cleanup_ret : Int) (its : List Iter)
    (w : World σ) (send_buffer : List Byte) : Option (Int × World σ) :=
  match (if listen_flag then server_mode T its w send_buffer
         else client_mode T its w send_buffer) with
  | none => none
  | some (retval, w1) =>
    let w2 := if cleanup_ret ≠ 0 then
        { w1 with trace := w1.trace ++ [Event.stderr Diag.cleanup] }
      else w1
    if retval ≠ 0 then some (EXIT_FAILURE, w2)
    else if w2.print_on_exit then some (EXIT_SUCCESS, print_total_sent_recvd_bytes w2)
    else some (EXIT_SUCCESS, w2)

/-- The calls of `send_msg` in a trace, in order: the chunk passed, the
length passed and the value returned. -/
def send_msg_calls (tr : List Event) : List (List Byte × Int × Int) :=
  tr.filterMap (fun e => match e with
    | Event.send_msg chunk len r => some (chunk, len, r)
    | _ => none)

/-- The sum of the values returned by the calls of `send_msg` that did not
return -1. -/
def accepted_total : List Event → Int
  | [] => 0
  | Event.send_msg _ _ r :: tr => (if r = -1 then 0 else r) + accepted_total tr
  | _ :: tr => accepted_total tr

/-- The sum of the lengths passed to the calls of `send_msg` that did not
return -1. -/
def sent_lengths : List Event → Int
  | [] => 0
  | Event.send_msg _ len r :: tr => (if r = -1 then 0 else len) + sent_lengths tr
  | _ :: tr => sent_lengths tr

/-- The number of status reports printed by a trace. -/
def status_reports (tr : List Event) : Nat :=
  tr.countP (fun e => match e with
    | Event.print_totals _ _ => true
    | _ => false)

/-- A turn during which no status request reaches the loop condition. -/
def Iter.calm (it : Iter) : Prop :=
  it.during_read.usr1 = false ∧ it.in_condition.usr1 = false

/-- The part of a trace that a framing function can append: transport calls
and diagnostic lines only. -/
def transport_only (l : List Event) : Prop :=
  stdout_bytes l = [] ∧ recv_msg_rets l = [] ∧ kills l = [] ∧ send_msg_calls l = [] ∧
  accepted_total l = 0 ∧ sent_lengths l = 0 ∧ status_reports l = 0

/-- The bytes of the payloads `ps`, one after the other. -/
def concat_payloads : List (List Byte) → List Byte
  | [] => []
  | p :: ps => p ++ concat_payloads ps

/-- The sum of the lengths of the payloads `ps`. -/
def payload_bytes : List (List Byte) → Nat
  | [] => 0
  | p :: ps => p.length + payload_bytes ps

/-- The receiving end of a byte stream on which the units "hi" and "!" are in
flight and whose peer then closes. -/
def two_units : World (List Byte) :=
  World.init (int_bytes 2 ++ [104, 105] ++ int_bytes 1 ++ [33])

/-- World `later` follows `w` in a run whose appended events account for the
change of `total_sent_bytes`: the counter, an unsigned 64-bit integer, grew by
the values returned by the successful calls of `send_msg`. -/
def counts_sent (w later : World σ) : Prop :=
  ∃ l, later.trace = w.trace ++ l ∧
    (later.total_sent_bytes : Int) =
      ((w.total_sent_bytes : Int) + accepted_total l) % 18446744073709551616

/-- A send buffer holding "hello", and the two turns "read five bytes, then
end of input", without signals. -/
def hello : List Byte := [104, 101, 108, 108, 111]

/-- Two turns without signals: `read` delivers "hello", then end of input. -/
def hello_then_eof : List Iter :=
  [{ during_read := Sig.none, rd := ReadRes.data hello, in_condition := Sig.none,
     before_body := Sig.none },
   { during_read := Sig.none, rd := ReadRes.data [], in_condition := Sig.none,
     before_body := Sig.none }]

/-- A connection that accepts the four bytes of the length and then only
three bytes of the payload offered. -/
def accepting_three : World Script :=
  sending [SendResp.accepted 4, SendResp.accepted 3]

/-- A turn during which SIGUSR1 is handled before the loop condition is
evaluated and `read` ends as `r`. -/
def status_turn (r : ReadRes) : Iter :=
  { during_read := { term := false, usr1 := true }, rd := r, in_condition := Sig.none,
    before_body := Sig.none }

/-- A turn without signals in which `read` ends as `r`. -/
def plain_turn (r : ReadRes) : Iter :=
  { during_read := Sig.none, rd := r, in_condition := Sig.none, before_body := Sig.none }

/-- A transport read of the next call of `recv_msg` fails with `code`: the
size read, or the payload read after a size read that delivered an admissible
length. -/
def read_fails (T : Transport σ) (w : World σ) (buffer_size code : Int) : Prop :=
  (∃ net1, T.recv w.net 4 = (RecvResp.error code, net1)) ∨
  (∃ bytes net1 net2, T.recv w.net 4 = (RecvResp.data bytes, net1) ∧
    (0 ≤ bytes_int (store (int_bytes 0) (bytes.take 4)) ∧
      bytes_int (store (int_bytes 0) (bytes.take 4)) ≤ buffer_size) ∧
    T.recv net1 (bytes_int (store (int_bytes 0) (bytes.take 4))) =
      (RecvResp.error code, net2))

/-- The receiving end of a byte stream with nothing in flight whose peer has
closed: the next read reports a lost connection. -/
def peer_gone : World (List Byte) := World.init []

/-- The values returned by the calls of `read` on standard input in a trace,
in order. -/
def stdin_reads (tr : List Event) : List Int :=
  tr.filterMap (fun e => match e with
    | Event.read_stdin r => some r
    | _ => none)

/-! ## Facts about the representation of lengths -/

theorem bytes_int_int_bytes (n : Nat) (h : n < 2147483648) :
    bytes_int (int_bytes (n : Int)) = n := by
  have h1 : ((n : Int) % 4294967296).toNat = n := by omega
  simp only [int_bytes, bytes_int, h1, byte_of, List.foldr]
  split <;> omega

theorem int_bytes_length (x : Int) : (int_bytes x).length = 4 := rfl

theorem int_bytes_ne_nil (x : Int) : int_bytes x ≠ [] := by
  simp [int_bytes]

theorem send_msg_stream (w : World (List Byte)) (P : List Byte) :
    (send_msg stream w P P.length).1 = P.length ∧
    (send_msg stream w P P.length).2.net = w.net ++ int_bytes P.length ++ P := by
  cases P with
  | nil =>
    simp [send_msg, udt_send, stream, UDT_ERROR, int_bytes_length]
  | cons a t =>
    have h : ¬ ((t.length : Int) + 1 ≤ 0) := by omega
    have h2 : ¬ ((t.length : Int) + 1 = -1) := by omega
    have h3 : List.take 4 (int_bytes ((t.length : Int) + 1)) = int_bytes ((t.length : Int) + 1) := rfl
    simp [send_msg, udt_send, stream, UDT_ERROR, int_bytes_length, h, h2, h3]

/-! ## Transport calls -/

theorem udt_recv_data (T : Transport σ) (w : World σ) (len : Int) (bytes : List Byte)
    (net1 : σ) (h : T.recv w.net len = (RecvResp.data bytes, net1)) :
    udt_recv T w len =
      (((bytes.take len.toNat).length : Int), bytes.take len.toNat,
        { w with net := net1,
                 trace := w.trace ++
                   [Event.udt_recv len ((bytes.take len.toNat).length : Int)] }) := by
  simp [udt_recv, h]

theorem udt_recv_error (T : Transport σ) (w : World σ) (len code : Int)
    (net1 : σ) (h : T.recv w.net len = (RecvResp.error code, net1)) :
    udt_recv T w len =
      (UDT_ERROR, [], { w with net := net1, udt_lasterror := code,
                               trace := w.trace ++ [Event.udt_recv len UDT_ERROR] }) := by
  simp [udt_recv, h]

theorem length_ne_UDT_ERROR (n : Nat) : (n : Int) ≠ UDT_ERROR := by
  unfold UDT_ERROR
  omega

theorem new_events_append (w later : World σ) (l : List Event)
    (h : later.trace = w.trace ++ l) : new_events w later = l := by
  simp [new_events, h]

/-! ## The paths through `recv_msg` -/


theorem recv_msg_size_failed (T : Transport σ) (w w1 : World σ) (buffer got1 : List Byte)
    (size : Int) (h1 : udt_recv T w 4 = (UDT_ERROR, got1, w1)) :
    recv_msg T w buffer size =
      (Outcome.ret (-1), buffer,
        if w1.udt_lasterror ≠ UDT_ERR_CONN_LOST then
          { w1 with last_recv_err_code := w1.udt_lasterror,
                    trace := w1.trace ++ [Event.stderr Diag.recv_size] }
        else { w1 with last_recv_err_code := w1.udt_lasterror }) := by
  unfold recv_msg
  rw [h1]
  by_cases hc : w1.udt_lasterror = UDT_ERR_CONN_LOST <;> simp [hc]

theorem recv_msg_rejected (T : Transport σ) (w w1 : World σ) (buffer got1 : List Byte)
    (size r1 msg_len : Int) (h1 : udt_recv T w 4 = (r1, got1, w1)) (hr1 : r1 ≠ UDT_ERROR)
    (hm : bytes_int (store (int_bytes 0) got1) = msg_len)
    (hlen : ¬ (msg_len ≤ size ∧ msg_len ≥ 0)) :
    recv_msg T w buffer size = (Outcome.abort, buffer, w1) := by
  subst hm
  unfold recv_msg
  rw [h1]
  simp only [hr1, if_false, hlen]

theorem recv_msg_data_failed (T : Transport σ) (w w1 w2 : World σ)
    (buffer got1 got2 : List Byte) (size r1 msg_len : Int)
    (h1 : udt_recv T w 4 = (r1, got1, w1)) (hr1 : r1 ≠ UDT_ERROR)
    (hm : bytes_int (store (int_bytes 0) got1) = msg_len)
    (hlen : msg_len ≤ size ∧ msg_len ≥ 0)
    (h2 : udt_recv T w1 msg_len = (UDT_ERROR, got2, w2)) :
    recv_msg T w buffer size =
      if w2.udt_lasterror ≠ UDT_ERR_CONN_LOST then
        (Outcome.ret (-1), store buffer got2,
          { w2 with last_recv_err_code := w2.udt_lasterror,
                    trace := w2.trace ++ [Event.stderr Diag.recv_data] })
      else
        (Outcome.ret UDT_ERROR, store buffer got2,
          { w2 with last_recv_err_code := w2.udt_lasterror }) := by
  subst hm
  unfold recv_msg
  rw [h1]
  simp only [hr1, if_false, hlen, and_self, if_true]
  rw [h2]
  simp

theorem recv_msg_received (T : Transport σ) (w w1 w2 : World σ)
    (buffer got1 got2 : List Byte) (size r1 r2 msg_len : Int)
    (h1 : udt_recv T w 4 = (r1, got1, w1)) (hr1 : r1 ≠ UDT_ERROR)
    (hm : bytes_int (store (int_bytes 0) got1) = msg_len)
    (hlen : msg_len ≤ size ∧ msg_len ≥ 0)
    (h2 : udt_recv T w1 msg_len = (r2, got2, w2))
    (hr2 : r2 ≠ UDT_ERROR) :
    recv_msg T w buffer size = (Outcome.ret r2, store buffer got2, w2) := by
  subst hm
  unfold recv_msg
  rw [h1]
  simp only [hr1, if_false, hlen, and_self, if_true]
  rw [h2]
  simp [hr2]

/-! ## Reads from the byte stream -/

theorem udt_recv_stream_nonpos (w : World (List Byte)) (len : Int) (h : len ≤ 0) :
    udt_recv stream w len =
      (0, [], { w with trace := w.trace ++ [Event.udt_recv len 0] }) := by
  simp [udt_recv, stream, h]

theorem udt_recv_stream_pos (w : World (List Byte)) (len : Int) (h : 0 < len)
    (hne : w.net ≠ []) :
    udt_recv stream w len =
      (((w.net.take len.toNat).length : Int), w.net.take len.toNat,
        { w with net := w.net.drop len.toNat,
                 trace := w.trace ++
                   [Event.udt_recv len ((w.net.take len.toNat).length : Int)] }) := by
  have h0 : ¬ len ≤ 0 := by omega
  simp [udt_recv, stream, h0, hne]

theorem store_zero_int_bytes (x : Int) : store (int_bytes 0) (int_bytes x) = int_bytes x := rfl

theorem recv_msg_stream (w : World (List Byte)) (P buffer : List Byte) (size : Int)
    (hP : (P.length : Int) ≤ size) (hlen : P.length < 2147483648)
    (hnet : w.net = int_bytes P.length ++ P) :
    (recv_msg stream w buffer size).1 = Outcome.ret P.length ∧
    (recv_msg stream w buffer size).2.1 = store buffer P ∧
    (recv_msg stream w buffer size).2.2.net = [] := by
  have hb := bytes_int_int_bytes P.length hlen
  have hne : w.net ≠ [] := by simp [hnet, int_bytes_ne_nil]
  have h1 := udt_recv_stream_pos w 4 (by decide) hne
  have ht : w.net.take (4 : Int).toNat = int_bytes P.length := by
    rw [hnet]
    exact List.take_left' (int_bytes_length _)
  have hd : w.net.drop (4 : Int).toNat = P := by
    rw [hnet]
    exact List.drop_left' (int_bytes_length _)
  rw [ht, hd] at h1
  have hr1 : (((int_bytes (P.length : Int)).length : Nat) : Int) ≠ UDT_ERROR := by
    simp [int_bytes_length, UDT_ERROR]
  have hm : bytes_int (store (int_bytes 0) (int_bytes (P.length : Int))) = P.length := by
    rw [store_zero_int_bytes, hb]
  have hin : (P.length : Int) ≤ size ∧ (P.length : Int) ≥ 0 := by omega
  by_cases hz : P = []
  · have h2 := udt_recv_stream_nonpos
      { w with net := P, trace := w.trace ++
          [Event.udt_recv 4 (((int_bytes (P.length : Int)).length : Nat) : Int)] }
      (P.length : Int) (by simp [hz])
    rw [recv_msg_received stream w _ _ buffer _ _ size _ _ _ h1 hr1 hm hin h2 (by simp [UDT_ERROR])]
    simp [store, hz]
  · have hpos : 0 < (P.length : Int) := by
      have := List.length_pos.mpr hz
      omega
    have h2 := udt_recv_stream_pos
      { w with net := P, trace := w.trace ++
          [Event.udt_recv 4 (((int_bytes (P.length : Int)).length : Nat) : Int)] }
      (P.length : Int) hpos hz
    have hr2 : ((List.take (P.length : Int).toNat P).length : Int) ≠ UDT_ERROR := by
      simp [UDT_ERROR]
    rw [recv_msg_received stream w _ _ buffer _ _ size _ _ _ h1 hr1 hm hin h2 hr2]
    simp

/-! ## C1: round trip of the framing -/

/-- C1: for every payload `P` of at most `RECV_BUFFER_SIZE` (1024) bytes, when
`send_msg(P, len(P))` writes to an empty reliable ordered byte stream and
`recv_msg` with `buffer_size = 1024` then reads from that stream, `send_msg`
returns `len(P)`, `recv_msg` returns `len(P)`, the first `len(P)` bytes of its
buffer are exactly `P` (the rest of the buffer is untouched), and the stream is
left empty. -/
theorem C1_round_trip (P : List Byte) (hP : P.length ≤ RECV_BUFFER_SIZE)
    (ws wr : World (List Byte)) (buffer : List Byte) (hs : ws.net = []) :
    (send_msg stream ws P P.length).1 = P.length ∧
    (recv_msg stream { wr with net := (send_msg stream ws P P.length).2.net }
        buffer RECV_BUFFER_SIZE).1 = Outcome.ret P.length ∧
    List.take P.length (recv_msg stream
        { wr with net := (send_msg stream ws P P.length).2.net }
        buffer RECV_BUFFER_SIZE).2.1 = P ∧
    (recv_msg stream { wr with net := (send_msg stream ws P P.length).2.net }
        buffer RECV_BUFFER_SIZE).2.1 = P ++ buffer.drop P.length ∧
    (recv_msg stream { wr with net := (send_msg stream ws P P.length).2.net }
        buffer RECV_BUFFER_SIZE).2.2.net = [] := by
  have hsend := send_msg_stream ws P
  rw [hs, List.nil_append] at hsend
  have hP2 : P.length ≤ 1024 := hP
  have hrecv := recv_msg_stream { wr with net := (send_msg stream ws P P.length).2.net }
    P buffer RECV_BUFFER_SIZE (by simp [RECV_BUFFER_SIZE]; omega) (by omega) hsend.2
  refine ⟨hsend.1, hrecv.1, ?_, ?_, hrecv.2.2⟩
  · rw [hrecv.2.1]; simp [store]
  · rw [hrecv.2.1]; rfl

/-- C1 at the payload "hi", sent on an empty stream and received into an
empty buffer. -/
theorem C1_round_trip_witness :
    ([104, 105] : List Byte).length ≤ RECV_BUFFER_SIZE ∧
    (send_msg stream (World.init ([] : List Byte)) [104, 105] 2).1 = 2 ∧
    (recv_msg stream
        { World.init ([] : List Byte) with net := (send_msg stream (World.init ([] : List Byte)) [104, 105] 2).2.net }
        [] RECV_BUFFER_SIZE).1 = Outcome.ret 2 ∧
    List.take 2 (recv_msg stream
        { World.init ([] : List Byte) with net := (send_msg stream (World.init ([] : List Byte)) [104, 105] 2).2.net }
        [] RECV_BUFFER_SIZE).2.1 = [104, 105] ∧
    (recv_msg stream
        { World.init ([] : List Byte) with net := (send_msg stream (World.init ([] : List Byte)) [104, 105] 2).2.net }
        [] RECV_BUFFER_SIZE).2.1 = [104, 105] ++ ([] : List Byte).drop 2 ∧
    (recv_msg stream
        { World.init ([] : List Byte) with net := (send_msg stream (World.init ([] : List Byte)) [104, 105] 2).2.net }
        [] RECV_BUFFER_SIZE).2.2.net = [] :=
  ⟨by decide, C1_round_trip [104, 105] (by decide) (World.init ([] : List Byte)) (World.init ([] : List Byte)) [] rfl⟩

/-! ## C2: validation of the received length -/

/-- C2: when the size read of `recv_msg` delivers a length outside
`0..buffer_size`, the length check fails (the outcome is the failed `assert`),
the buffer is untouched and the size read is the only read issued to the
transport; when the length lies inside the range the check passes and the one
payload read issued asks for exactly that many bytes. -/
theorem C2_length_validation (T : Transport σ) (w : World σ) (buffer : List Byte)
    (buffer_size : Int) (bytes : List Byte) (net1 : σ)
    (h : T.recv w.net 4 = (RecvResp.data bytes, net1)) :
    (¬ (0 ≤ bytes_int (store (int_bytes 0) (bytes.take 4)) ∧
        bytes_int (store (int_bytes 0) (bytes.take 4)) ≤ buffer_size) →
      (recv_msg T w buffer buffer_size).1 = Outcome.abort ∧
      (recv_msg T w buffer buffer_size).2.1 = buffer ∧
      (recv_msg T w buffer buffer_size).2.2.net = net1 ∧
      recv_requests (new_events w (recv_msg T w buffer buffer_size).2.2) = [4]) ∧
    ((0 ≤ bytes_int (store (int_bytes 0) (bytes.take 4)) ∧
        bytes_int (store (int_bytes 0) (bytes.take 4)) ≤ buffer_size) →
      (recv_msg T w buffer buffer_size).1 ≠ Outcome.abort ∧
      recv_requests (new_events w (recv_msg T w buffer buffer_size).2.2) =
        [4, bytes_int (store (int_bytes 0) (bytes.take 4))]) := by
  have h1 := udt_recv_data T w 4 bytes net1 h
  have h4 : (4 : Int).toNat = 4 := rfl
  rw [h4] at h1
  constructor
  · intro hout
    rw [recv_msg_rejected T w _ buffer _ buffer_size _ _ h1 (length_ne_UDT_ERROR _) rfl
      (by omega)]
    refine ⟨rfl, rfl, rfl, ?_⟩
    rw [new_events_append w _ _ rfl]
    rfl
  · intro hin
    cases h2 : T.recv net1 (bytes_int (store (int_bytes 0) (bytes.take 4))) with
    | mk resp net2 =>
      cases resp with
      | error code =>
        have h2b := udt_recv_error T
          { w with net := net1, trace := w.trace ++
              [Event.udt_recv 4 ((List.take 4 bytes).length : Int)] } _ code net2 h2
        rw [recv_msg_data_failed T w _ _ buffer _ _ buffer_size _ _ h1
          (length_ne_UDT_ERROR _) rfl (by omega) h2b]
        by_cases hc : code = UDT_ERR_CONN_LOST
        · simp [hc, new_events, recv_requests]
        · simp [hc, new_events, recv_requests]
      | data bytes2 =>
        have h2b := udt_recv_data T
          { w with net := net1, trace := w.trace ++
              [Event.udt_recv 4 ((List.take 4 bytes).length : Int)] } _ bytes2 net2 h2
        rw [recv_msg_received T w _ _ buffer _ _ buffer_size _ _ _ h1
          (length_ne_UDT_ERROR _) rfl (by omega) h2b (length_ne_UDT_ERROR _)]
        simp [new_events, recv_requests]

/-- C2 on the byte stream: a unit announcing 1025 bytes is rejected after the
size read alone, a unit announcing 2 bytes passes the check. -/
theorem C2_length_validation_witness :
    ((recv_msg stream (World.init (int_bytes 1025)) [] 1024).1 = Outcome.abort ∧
      (recv_msg stream (World.init (int_bytes 1025)) [] 1024).2.1 = [] ∧
      (recv_msg stream (World.init (int_bytes 1025)) [] 1024).2.2.net = [] ∧
      recv_requests (new_events (World.init (int_bytes 1025))
        (recv_msg stream (World.init (int_bytes 1025)) [] 1024).2.2) = [4]) ∧
    ((recv_msg stream (World.init (int_bytes 2 ++ [104, 105])) [] 1024).1 ≠ Outcome.abort ∧
      recv_requests (new_events (World.init (int_bytes 2 ++ [104, 105]))
        (recv_msg stream (World.init (int_bytes 2 ++ [104, 105])) [] 1024).2.2) =
        [4, bytes_int (store (int_bytes 0) ((int_bytes 2).take 4))]) :=
  ⟨(C2_length_validation stream (World.init (int_bytes 1025)) [] 1024
      (int_bytes 1025) [] (by decide)).1 (by decide),
   (C2_length_validation stream (World.init (int_bytes 2 ++ [104, 105])) [] 1024
      (int_bytes 2) [104, 105] (by decide)).2 (by decide)⟩

/-! ## C3: the unit of length zero -/

/-- C3, as stated, fails: on `zero_then_lost` the size read delivers the
length 0, `recv_msg` still issues the payload read, that read fails, and
`recv_msg` returns -1 instead of 0. -/
theorem C3_zero_length_counterexample :
    scripted.recv zero_then_lost.net 4 =
      (RecvResp.data [0, 0, 0, 0], { sends := [], recvs := [RecvResp.error 2001] }) ∧
    bytes_int (store (int_bytes 0) (List.take 4 [0, 0, 0, 0])) = 0 ∧
    (recv_msg scripted zero_then_lost [] 1024).1 = Outcome.ret (-1) ∧
    (recv_msg scripted zero_then_lost [] 1024).1 ≠ Outcome.ret 0 ∧
    (recv_msg scripted zero_then_lost [] 1024).2.2.last_recv_err_code = UDT_ERR_CONN_LOST := by
  decide

/-- C3, amended: when the size read of `recv_msg` delivers the length 0 (and
`buffer_size` is not negative), `recv_msg` issues exactly one further read,
which asks the transport for 0 bytes, and leaves the receive buffer unchanged;
it returns 0 when that zero-length read does not fail and -1 when it fails. -/
theorem C3_zero_length (T : Transport σ) (w : World σ) (buffer : List Byte)
    (buffer_size : Int) (bytes : List Byte) (net1 : σ)
    (h : T.recv w.net 4 = (RecvResp.data bytes, net1))
    (hzero : bytes_int (store (int_bytes 0) (bytes.take 4)) = 0)
    (hsize : 0 ≤ buffer_size) :
    recv_requests (new_events w (recv_msg T w buffer buffer_size).2.2) = [4, 0] ∧
    (recv_msg T w buffer buffer_size).2.1 = buffer ∧
    (∀ bytes2 net2, T.recv net1 0 = (RecvResp.data bytes2, net2) →
      (recv_msg T w buffer buffer_size).1 = Outcome.ret 0 ∧
      (recv_msg T w buffer buffer_size).2.2.net = net2 ∧
      diags (new_events w (recv_msg T w buffer buffer_size).2.2) = []) ∧
    (∀ code net2, T.recv net1 0 = (RecvResp.error code, net2) →
      (recv_msg T w buffer buffer_size).1 = Outcome.ret (-1) ∧
      (recv_msg T w buffer buffer_size).2.2.last_recv_err_code = code) := by
  have h1 := udt_recv_data T w 4 bytes net1 h
  have h4 : (4 : Int).toNat = 4 := rfl
  rw [h4] at h1
  cases h2 : T.recv net1 0 with
  | mk resp net2 =>
    cases resp with
    | error code =>
      have h2b := udt_recv_error T
        { w with net := net1, trace := w.trace ++
            [Event.udt_recv 4 ((List.take 4 bytes).length : Int)] } 0 code net2 h2
      rw [recv_msg_data_failed T w _ _ buffer _ _ buffer_size _ _ h1
        (length_ne_UDT_ERROR _) hzero (by omega) h2b]
      by_cases hc : code = UDT_ERR_CONN_LOST
      · simp [hc, new_events, recv_requests, store, UDT_ERROR]
      · simp [hc, new_events, recv_requests, store]
    | data bytes2 =>
      have h2b := udt_recv_data T
        { w with net := net1, trace := w.trace ++
            [Event.udt_recv 4 ((List.take 4 bytes).length : Int)] } 0 bytes2 net2 h2
      rw [recv_msg_received T w _ _ buffer _ _ buffer_size _ _ _ h1
        (length_ne_UDT_ERROR _) hzero (by omega) h2b (length_ne_UDT_ERROR _)]
      simp [new_events, recv_requests, diags, store]

/-- C3 amended, on the byte stream holding one unit of length zero: the call
returns 0, and on `zero_then_lost` it returns -1. -/
theorem C3_zero_length_witness :
    (recv_requests (new_events (World.init (int_bytes 0))
        (recv_msg stream (World.init (int_bytes 0)) [7, 7] 1024).2.2) = [4, 0] ∧
      (recv_msg stream (World.init (int_bytes 0)) [7, 7] 1024).2.1 = [7, 7] ∧
      (recv_msg stream (World.init (int_bytes 0)) [7, 7] 1024).1 = Outcome.ret 0) ∧
    (recv_msg scripted zero_then_lost [7, 7] 1024).1 = Outcome.ret (-1) :=
  ⟨⟨(C3_zero_length stream (World.init (int_bytes 0)) [7, 7] 1024 (int_bytes 0) []
        (by decide) (by decide) (by decide)).1,
    (C3_zero_length stream (World.init (int_bytes 0)) [7, 7] 1024 (int_bytes 0) []
        (by decide) (by decide) (by decide)).2.1,
    ((C3_zero_length stream (World.init (int_bytes 0)) [7, 7] 1024 (int_bytes 0) []
        (by decide) (by decide) (by decide)).2.2.1 [] [] (by decide)).1⟩,
   ((C3_zero_length scripted zero_then_lost [7, 7] 1024 [0, 0, 0, 0]
        { sends := [], recvs := [RecvResp.error 2001] }
        (by decide) (by decide) (by decide)).2.2.2 2001 { sends := [], recvs := [] }
        (by decide)).1⟩

/-! ## C5: the two ordered writes of `send_msg` -/

theorem udt_send_error (T : Transport σ) (w : World σ) (buf : List Byte) (len code : Int)
    (net1 : σ) (h : T.send w.net (buf.take len.toNat) len = (SendResp.error code, net1)) :
    udt_send T w buf len =
      (UDT_ERROR, { w with net := net1, udt_lasterror := code,
                           trace := w.trace ++
                             [Event.udt_send (buf.take len.toNat) len UDT_ERROR] }) := by
  simp [udt_send, h]

theorem udt_send_accepted (T : Transport σ) (w : World σ) (buf : List Byte) (len : Int)
    (n : Nat) (net1 : σ)
    (h : T.send w.net (buf.take len.toNat) len = (SendResp.accepted n, net1)) :
    udt_send T w buf len =
      (((min n len.toNat : Nat) : Int),
        { w with net := net1,
                 trace := w.trace ++
                   [Event.udt_send (buf.take len.toNat) len ((min n len.toNat : Nat) : Int)] }) := by
  simp [udt_send, h]

theorem take_four_int_bytes (x : Int) : (int_bytes x).take (4 : Int).toNat = int_bytes x := rfl

/-- C5: `send_msg` first offers the transport the four bytes of `msg_len`.
If that write fails, `send_msg` returns -1, stores the error code in
`last_send_err_code`, and the size write is the only write issued. If it is
accepted, the payload write follows; if the payload write fails `send_msg`
returns -1 (and stores the code); if it is accepted `send_msg` returns the
number of payload bytes the transport accepted and prints nothing. -/
theorem C5_send_msg_two_writes (T : Transport σ) (w : World σ) (msg : List Byte)
    (msg_len : Int) :
    (∀ code net1, T.send w.net (int_bytes msg_len) 4 = (SendResp.error code, net1) →
      (send_msg T w msg msg_len).1 = -1 ∧
      (send_msg T w msg msg_len).2.last_send_err_code = code ∧
      (send_msg T w msg msg_len).2.net = net1 ∧
      send_requests (new_events w (send_msg T w msg msg_len).2) = [(int_bytes msg_len, 4)]) ∧
    (∀ n net1 code net2, T.send w.net (int_bytes msg_len) 4 = (SendResp.accepted n, net1) →
      T.send net1 (msg.take msg_len.toNat) msg_len = (SendResp.error code, net2) →
      (send_msg T w msg msg_len).1 = -1 ∧
      (send_msg T w msg msg_len).2.last_send_err_code = code ∧
      send_requests (new_events w (send_msg T w msg msg_len).2) =
        [(int_bytes msg_len, 4), (msg.take msg_len.toNat, msg_len)]) ∧
    (∀ n net1 m net2, T.send w.net (int_bytes msg_len) 4 = (SendResp.accepted n, net1) →
      T.send net1 (msg.take msg_len.toNat) msg_len = (SendResp.accepted m, net2) →
      (send_msg T w msg msg_len).1 = ((min m msg_len.toNat : Nat) : Int) ∧
      (send_msg T w msg msg_len).2.last_send_err_code = w.last_send_err_code ∧
      (send_msg T w msg msg_len).2.net = net2 ∧
      diags (new_events w (send_msg T w msg msg_len).2) = [] ∧
      send_requests (new_events w (send_msg T w msg msg_len).2) =
        [(int_bytes msg_len, 4), (msg.take msg_len.toNat, msg_len)]) := by
  refine ⟨?_, ?_, ?_⟩
  · intro code net1 h1
    have e1 := udt_send_error T w (int_bytes msg_len) 4 code net1
      (by rw [take_four_int_bytes]; exact h1)
    rw [take_four_int_bytes] at e1
    unfold send_msg
    rw [e1]
    simp [new_events, send_requests]
  · intro n net1 code net2 h1 h2
    have e1 := udt_send_accepted T w (int_bytes msg_len) 4 n net1
      (by rw [take_four_int_bytes]; exact h1)
    rw [take_four_int_bytes] at e1
    have e2 := udt_send_error T
      { w with net := net1, trace := w.trace ++
          [Event.udt_send (int_bytes msg_len) 4 ((min n (4 : Int).toNat : Nat) : Int)] }
      msg msg_len code net2 h2
    unfold send_msg
    rw [e1]
    simp only [length_ne_UDT_ERROR, if_false]
    rw [e2]
    simp [new_events, send_requests]
  · intro n net1 m net2 h1 h2
    have e1 := udt_send_accepted T w (int_bytes msg_len) 4 n net1
      (by rw [take_four_int_bytes]; exact h1)
    rw [take_four_int_bytes] at e1
    have e2 := udt_send_accepted T
      { w with net := net1, trace := w.trace ++
          [Event.udt_send (int_bytes msg_len) 4 ((min n (4 : Int).toNat : Nat) : Int)] }
      msg msg_len m net2 h2
    unfold send_msg
    rw [e1]
    simp only [length_ne_UDT_ERROR, if_false]
    rw [e2]
    simp only [length_ne_UDT_ERROR, if_false]
    simp [new_events, send_requests, diags]

/-- C5 on three scripted connections: the size write refused with code 5, the
payload write refused with code 5, both writes accepted. -/
theorem C5_send_msg_two_writes_witness :
    ((send_msg scripted (sending [SendResp.error 5]) [104, 105] 2).1 = -1 ∧
      (send_msg scripted (sending [SendResp.error 5]) [104, 105] 2).2.last_send_err_code = 5 ∧
      send_requests (new_events (sending [SendResp.error 5])
        (send_msg scripted (sending [SendResp.error 5]) [104, 105] 2).2) =
        [(int_bytes 2, 4)]) ∧
    (send_msg scripted (sending [SendResp.accepted 4, SendResp.error 5]) [104, 105] 2).1 = -1 ∧
    (send_msg scripted (sending [SendResp.accepted 4, SendResp.accepted 2]) [104, 105] 2).1
      = 2 :=
  ⟨⟨((C5_send_msg_two_writes scripted (sending [SendResp.error 5]) [104, 105] 2).1 5
        { sends := [], recvs := [] } (by decide)).1,
    ((C5_send_msg_two_writes scripted (sending [SendResp.error 5]) [104, 105] 2).1 5
        { sends := [], recvs := [] } (by decide)).2.1,
    ((C5_send_msg_two_writes scripted (sending [SendResp.error 5]) [104, 105] 2).1 5
        { sends := [], recvs := [] } (by decide)).2.2.2⟩,
   ((C5_send_msg_two_writes scripted (sending [SendResp.accepted 4, SendResp.error 5])
        [104, 105] 2).2.1 4 { sends := [SendResp.error 5], recvs := [] } 5
        { sends := [], recvs := [] } (by decide) (by decide)).1,
   ((C5_send_msg_two_writes scripted (sending [SendResp.accepted 4, SendResp.accepted 2])
        [104, 105] 2).2.2 4 { sends := [SendResp.accepted 2], recvs := [] } 2
        { sends := [], recvs := [] } (by decide) (by decide)).1⟩

/-! ## C6: the failure path of `recv_msg` -/

/-- C6: whenever a transport read of `recv_msg` fails with code `code` (the
size read, or the payload read after a size read that delivered an admissible
length), `recv_msg` returns -1, stores `code` in `last_recv_err_code`, and
prints a diagnostic line exactly when `code` differs from `UDT_ERR_CONN_LOST`
(2001): a lost connection is never logged. -/
theorem C6_recv_msg_failure (T : Transport σ) (w : World σ) (buffer : List Byte)
    (buffer_size code : Int)
    (h : (∃ net1, T.recv w.net 4 = (RecvResp.error code, net1)) ∨
      (∃ bytes net1 net2, T.recv w.net 4 = (RecvResp.data bytes, net1) ∧
        (0 ≤ bytes_int (store (int_bytes 0) (bytes.take 4)) ∧
          bytes_int (store (int_bytes 0) (bytes.take 4)) ≤ buffer_size) ∧
        T.recv net1 (bytes_int (store (int_bytes 0) (bytes.take 4))) =
          (RecvResp.error code, net2))) :
    (recv_msg T w buffer buffer_size).1 = Outcome.ret (-1) ∧
    (recv_msg T w buffer buffer_size).2.2.last_recv_err_code = code ∧
    (diags (new_events w (recv_msg T w buffer buffer_size).2.2) ≠ [] ↔
      code ≠ UDT_ERR_CONN_LOST) ∧
    (code = UDT_ERR_CONN_LOST →
      diags (new_events w (recv_msg T w buffer buffer_size).2.2) = []) := by
  rcases h with ⟨net1, h1⟩ | ⟨bytes, net1, net2, h1, hin, h2⟩
  · have e1 := udt_recv_error T w 4 code net1 h1
    rw [recv_msg_size_failed T w _ buffer [] buffer_size e1]
    by_cases hc : code = UDT_ERR_CONN_LOST
    · simp [hc, new_events, diags]
    · simp [hc, new_events, diags]
  · have e1 := udt_recv_data T w 4 bytes net1 h1
    have h4 : (4 : Int).toNat = 4 := rfl
    rw [h4] at e1
    have e2 := udt_recv_error T
      { w with net := net1, trace := w.trace ++
          [Event.udt_recv 4 ((List.take 4 bytes).length : Int)] } _ code net2 h2
    rw [recv_msg_data_failed T w _ _ buffer _ _ buffer_size _ _ e1
      (length_ne_UDT_ERROR _) rfl (by omega) e2]
    by_cases hc : code = UDT_ERR_CONN_LOST
    · simp [hc, new_events, diags, UDT_ERROR]
    · simp [hc, new_events, diags]

/-- C6 on two scripted connections: the size read fails with code 5004 (a
diagnostic line is printed), and the payload read fails with a lost
connection (nothing is printed). -/
theorem C6_recv_msg_failure_witness :
    ((recv_msg scripted (receiving [RecvResp.error 5004]) [] 1024).1 = Outcome.ret (-1) ∧
      (recv_msg scripted (receiving [RecvResp.error 5004]) [] 1024).2.2.last_recv_err_code
        = 5004 ∧
      diags (new_events (receiving [RecvResp.error 5004])
        (recv_msg scripted (receiving [RecvResp.error 5004]) [] 1024).2.2) ≠ []) ∧
    ((recv_msg scripted (receiving [RecvResp.data (int_bytes 2), RecvResp.error 2001])
        [] 1024).1 = Outcome.ret (-1) ∧
      diags (new_events (receiving [RecvResp.data (int_bytes 2), RecvResp.error 2001])
        (recv_msg scripted (receiving [RecvResp.data (int_bytes 2), RecvResp.error 2001])
          [] 1024).2.2) = []) :=
  ⟨⟨(C6_recv_msg_failure scripted (receiving [RecvResp.error 5004]) [] 1024 5004
        (Or.inl ⟨{ sends := [], recvs := [] }, by decide⟩)).1,
    (C6_recv_msg_failure scripted (receiving [RecvResp.error 5004]) [] 1024 5004
        (Or.inl ⟨{ sends := [], recvs := [] }, by decide⟩)).2.1,
    (C6_recv_msg_failure scripted (receiving [RecvResp.error 5004]) [] 1024 5004
        (Or.inl ⟨{ sends := [], recvs := [] }, by decide⟩)).2.2.1.mpr (by decide)⟩,
   ⟨(C6_recv_msg_failure scripted
        (receiving [RecvResp.data (int_bytes 2), RecvResp.error 2001]) [] 1024 2001
        (Or.inr ⟨int_bytes 2, { sends := [], recvs := [RecvResp.error 2001] },
          { sends := [], recvs := [] }, by decide, by decide, by decide⟩)).1,
    (C6_recv_msg_failure scripted
        (receiving [RecvResp.data (int_bytes 2), RecvResp.error 2001]) [] 1024 2001
        (Or.inr ⟨int_bytes 2, { sends := [], recvs := [RecvResp.error 2001] },
          { sends := [], recvs := [] }, by decide, by decide, by decide⟩)).2.2.2 rfl⟩⟩

/-! ## What `recv_msg` and `send_msg` leave alone -/

theorem store_take (buf got : List Byte) : (store buf got).take got.length = got := by
  simp [store]

theorem recv_msg_frame (T : Transport σ) (w : World σ) (buffer : List Byte) (size : Int) :
    (∃ l, (recv_msg T w buffer size).2.2.trace = w.trace ++ l ∧ transport_only l ∧
      ((recv_msg T w buffer size).1 = Outcome.ret (-1) →
        (recv_msg T w buffer size).2.2.last_recv_err_code = UDT_ERR_CONN_LOST →
        diags l = [])) ∧
    (recv_msg T w buffer size).2.2.total_recv_bytes = w.total_recv_bytes ∧
    (recv_msg T w buffer size).2.2.total_sent_bytes = w.total_sent_bytes ∧
    (recv_msg T w buffer size).2.2.exit_flag = w.exit_flag ∧
    (recv_msg T w buffer size).2.2.print_st_flag = w.print_st_flag ∧
    (∀ r, (recv_msg T w buffer size).1 = Outcome.ret r → r ≠ -1 →
      0 ≤ r ∧ (((recv_msg T w buffer size).2.1.take r.toNat).length : Int) = r) := by
  cases h1 : T.recv w.net 4 with
  | mk resp net1 =>
    cases resp with
    | error code =>
      have e1 := udt_recv_error T w 4 code net1 h1
      rw [recv_msg_size_failed T w _ buffer [] size e1]
      by_cases hc : code = UDT_ERR_CONN_LOST
      · simp [hc, transport_only, stdout_bytes, recv_msg_rets, kills, send_msg_calls,
          accepted_total, sent_lengths, status_reports, diags]
      · simp [hc, transport_only, stdout_bytes, recv_msg_rets, kills, send_msg_calls,
          accepted_total, sent_lengths, status_reports, diags]
    | data bytes =>
      have e1 := udt_recv_data T w 4 bytes net1 h1
      have h4 : (4 : Int).toNat = 4 := rfl
      rw [h4] at e1
      by_cases hin : bytes_int (store (int_bytes 0) (bytes.take 4)) ≤ size ∧
          bytes_int (store (int_bytes 0) (bytes.take 4)) ≥ 0
      · cases h2 : T.recv net1 (bytes_int (store (int_bytes 0) (bytes.take 4))) with
        | mk resp2 net2 =>
          cases resp2 with
          | error code =>
            have e2 := udt_recv_error T
              { w with net := net1, trace := w.trace ++
                  [Event.udt_recv 4 ((List.take 4 bytes).length : Int)] } _ code net2 h2
            rw [recv_msg_data_failed T w _ _ buffer _ _ size _ _ e1
              (length_ne_UDT_ERROR _) rfl hin e2]
            by_cases hc : code = UDT_ERR_CONN_LOST
            · simp [hc, transport_only, stdout_bytes, recv_msg_rets, kills, send_msg_calls,
                accepted_total, sent_lengths, status_reports, diags, UDT_ERROR]
            · simp [hc, transport_only, stdout_bytes, recv_msg_rets, kills, send_msg_calls,
                accepted_total, sent_lengths, status_reports, diags]
          | data bytes2 =>
            have e2 := udt_recv_data T
              { w with net := net1, trace := w.trace ++
                  [Event.udt_recv 4 ((List.take 4 bytes).length : Int)] } _ bytes2 net2 h2
            rw [recv_msg_received T w _ _ buffer _ _ size _ _ _ e1
              (length_ne_UDT_ERROR _) rfl hin e2 (length_ne_UDT_ERROR _)]
            refine ⟨?_, rfl, rfl, rfl, rfl, ?_⟩
            · simp [transport_only, stdout_bytes, recv_msg_rets, kills, send_msg_calls,
                accepted_total, sent_lengths, status_reports, diags]
            · intro r hr _
              simp only [Outcome.ret.injEq] at hr
              subst hr
              rw [Int.toNat_ofNat, store_take]
              exact ⟨Int.ofNat_nonneg _, rfl⟩
      · rw [recv_msg_rejected T w _ buffer _ size _ _ e1 (length_ne_UDT_ERROR _) rfl hin]
        simp [transport_only, stdout_bytes, recv_msg_rets, kills, send_msg_calls,
          accepted_total, sent_lengths, status_reports, diags]

/-! ## C7: the inbound flow -/

theorem stdout_bytes_append (l1 l2 : List Event) :
    stdout_bytes (l1 ++ l2) = stdout_bytes l1 ++ stdout_bytes l2 := by
  induction l1 with
  | nil => rfl
  | cons e t ih => cases e <;> simp [stdout_bytes, ih]

theorem recv_msg_rets_append (l1 l2 : List Event) :
    recv_msg_rets (l1 ++ l2) = recv_msg_rets l1 ++ recv_msg_rets l2 := by
  simp [recv_msg_rets, List.filterMap_append]

theorem recv_handler_deliver_trace (w : World σ) (buffer : List Byte) (r : Int) :
    (recv_handler_deliver w buffer r).trace = w.trace ++ [Event.stdout (buffer.take r.toNat)] ∧
    (recv_handler_deliver w buffer r).total_sent_bytes = w.total_sent_bytes ∧
    (recv_handler_deliver w buffer r).total_recv_bytes =
      if r > 0 then (((w.total_recv_bytes : Int) + r) % 18446744073709551616).toNat
      else w.total_recv_bytes := by
  unfold recv_handler_deliver
  by_cases h : r > 0 <;> simp [h]

/-- C7: when the next `k` calls of `recv_msg` succeed, delivering the payloads
`ps`, and the call after them fails, `recv_handler` ends (given at least
`k + 1` turns) without an assertion failure, has written to standard output
exactly the bytes of the `k` payloads in order, has called `recv_msg` exactly
`k + 1` times (the failing call is the last one), has increased
`total_recv_bytes` by the sum of the payload lengths (modulo 2^64, hence
exactly when the counter does not wrap) and has left `total_sent_bytes`
unchanged. -/
theorem C7_recv_handler (T : Transport σ) (kill_ret size : Int) (extra : Nat)
    (ps : List (List Byte)) :
    ∀ (w : World σ) (buffer : List Byte),
      w.total_recv_bytes < 18446744073709551616 →
      recv_results T size ps w buffer →
      ∃ e b w1 l, recv_handler T kill_ret size (extra + (ps.length + 1)) w buffer
          = some (e, b, w1) ∧
        e ≠ Ending.aborted ∧
        w1.trace = w.trace ++ l ∧
        stdout_bytes l = concat_payloads ps ∧
        recv_msg_rets l = ps.map (fun p => (p.length : Int)) ++ [-1] ∧
        w1.total_recv_bytes = (w.total_recv_bytes + payload_bytes ps) % 18446744073709551616 ∧
        (w.total_recv_bytes + payload_bytes ps < 18446744073709551616 →
          w1.total_recv_bytes = w.total_recv_bytes + payload_bytes ps) ∧
        w1.total_sent_bytes = w.total_sent_bytes := by
  induction ps with
  | nil =>
    intro w buffer hw h
    obtain ⟨⟨l, hl, hto, _⟩, hrecv, hsent, _, _, _⟩ := recv_msg_frame T w buffer size
    simp only [recv_results] at h
    cases hrm : recv_msg T w buffer size with
    | mk o rest =>
      cases rest with
      | mk b1 w1 =>
        rw [hrm] at h hl hrecv hsent
        simp only at h hl hrecv hsent
        subst h
        have hfuel : extra + (([] : List (List Byte)).length + 1) = extra + 1 := rfl
        rw [hfuel, recv_handler, hrm]
        simp only [if_true]
        have hmod : w.total_recv_bytes % 18446744073709551616 = w.total_recv_bytes :=
          Nat.mod_eq_of_lt hw
        obtain ⟨hso, hrr, _⟩ := hto
        by_cases hc : w1.last_recv_err_code = UDT_ERR_CONN_LOST
        · by_cases hk : kill_ret = 0
          · simp only [hc, hk, if_true, ne_eq, not_true_eq_false, if_false]
            refine ⟨_, _, _, l ++ [Event.recv_msg (-1), Event.pthread_kill 0],
              rfl, by simp, ?_, ?_, ?_, ?_, ?_, ?_⟩
            · simp [hl]
            · simp [stdout_bytes_append, hso, stdout_bytes, concat_payloads]
            · simp [recv_msg_rets_append, hrr]; simp [recv_msg_rets]
            · simp [payload_bytes, hrecv, hmod]
            · intro _; simp [payload_bytes, hrecv]
            · simp [hsent]
          · simp only [hc, hk, if_true, ne_eq, not_false_eq_true]
            refine ⟨_, _, _,
              l ++ [Event.recv_msg (-1), Event.pthread_kill kill_ret,
                Event.stderr Diag.pthread_kill], rfl, by simp, ?_, ?_, ?_, ?_, ?_, ?_⟩
            · simp [hl]
            · simp [stdout_bytes_append, hso, stdout_bytes, concat_payloads]
            · simp [recv_msg_rets_append, hrr]; simp [recv_msg_rets]
            · simp [payload_bytes, hrecv, hmod]
            · intro _; simp [payload_bytes, hrecv]
            · simp [hsent]
        · simp only [hc, if_false]
          refine ⟨_, _, _, l ++ [Event.recv_msg (-1)],
            rfl, by simp, ?_, ?_, ?_, ?_, ?_, ?_⟩
          · simp [hl]
          · simp [stdout_bytes_append, hso, stdout_bytes, concat_payloads]
          · simp [recv_msg_rets_append, hrr]; simp [recv_msg_rets]
          · simp [payload_bytes, hrecv, hmod]
          · intro _; simp [payload_bytes, hrecv]
          · simp [hsent]
  | cons p ps ih =>
    intro w buffer hw h
    obtain ⟨⟨l, hl, hto, _⟩, hrecv, hsent, _, _, hlen⟩ := recv_msg_frame T w buffer size
    simp only [recv_results] at h
    obtain ⟨r, hout, hr, hp, hrest⟩ := h
    obtain ⟨hr0, hplen⟩ := hlen r hout hr
    cases hrm : recv_msg T w buffer size with
    | mk o rest =>
      cases rest with
      | mk b1 w1 =>
        rw [hrm] at hl hrecv hsent hout hp hrest hplen
        simp only at hl hrecv hsent hout hp hrest hplen
        subst hout
        obtain ⟨ht, hs, htot⟩ := recv_handler_deliver_trace
          { w1 with trace := w1.trace ++ [Event.recv_msg r] } b1 r
        have hbound : (recv_handler_deliver
            { w1 with trace := w1.trace ++ [Event.recv_msg r] } b1 r).total_recv_bytes
            < 18446744073709551616 := by
          rw [htot]
          split
          · omega
          · simp only; omega
        obtain ⟨e, b2, w2, l2, hrun, hne, htr, hso2, hrr2, hmod2, _, hsent2⟩ :=
          ih _ b1 hbound hrest
        have hfuel : extra + ((p :: ps).length + 1) = (extra + (ps.length + 1)) + 1 := rfl
        rw [hfuel, recv_handler, hrm]
        simp only [hr, if_false]
        obtain ⟨hso, hrr, _⟩ := hto
        have hpl : (p.length : Int) = r := by rw [hp]; exact hplen
        have hval : w2.total_recv_bytes =
            (w.total_recv_bytes + payload_bytes (p :: ps)) % 18446744073709551616 := by
          rw [hmod2, htot]
          simp only [payload_bytes]
          by_cases hpos : r > 0
          · simp only [hpos, if_true, hrecv]
            omega
          · simp only [hpos, if_false, hrecv]
            have : p.length = 0 := by omega
            rw [this]
            simp
        refine ⟨e, b2, w2, l ++ [Event.recv_msg r, Event.stdout (b1.take r.toNat)] ++ l2,
          hrun, hne, ?_, ?_, ?_, hval, ?_, ?_⟩
        · rw [htr, ht]; simp [hl]
        · simp [stdout_bytes_append, hso, stdout_bytes, concat_payloads, hso2, hp]
        · rw [recv_msg_rets_append, recv_msg_rets_append, hrr, hrr2]
          simp [recv_msg_rets, hpl]
        · intro hlt; rw [hval]; exact Nat.mod_eq_of_lt hlt
        · rw [hsent2, hs]; exact hsent

/-- C7 on the byte stream carrying "hi" and "!" before the peer closes. -/
theorem C7_recv_handler_witness :
    ∃ e b w1 l, recv_handler stream 0 1024
        (0 + (([[104, 105], [33]] : List (List Byte)).length + 1)) two_units [] =
          some (e, b, w1) ∧
      e ≠ Ending.aborted ∧
      w1.trace = two_units.trace ++ l ∧
      stdout_bytes l = concat_payloads [[104, 105], [33]] ∧
      recv_msg_rets l =
        ([[104, 105], [33]] : List (List Byte)).map (fun p => (p.length : Int)) ++ [-1] ∧
      w1.total_recv_bytes =
        (two_units.total_recv_bytes + payload_bytes [[104, 105], [33]]) %
          18446744073709551616 ∧
      (two_units.total_recv_bytes + payload_bytes [[104, 105], [33]] <
          18446744073709551616 →
        w1.total_recv_bytes =
          two_units.total_recv_bytes + payload_bytes [[104, 105], [33]]) ∧
      w1.total_sent_bytes = two_units.total_sent_bytes :=
  C7_recv_handler stream 0 1024 0 [[104, 105], [33]] two_units [] (by decide)
    (by
      simp only [recv_results]
      exact ⟨2, by decide, by decide, by decide, 1, by decide, by decide, by decide,
        by decide⟩)

/-! ## C4: the counter of sent bytes -/

theorem send_msg_frame (T : Transport σ) (w : World σ) (msg : List Byte) (len : Int) :
    (∃ l, (send_msg T w msg len).2.trace = w.trace ++ l ∧ transport_only l) ∧
    (send_msg T w msg len).2.total_recv_bytes = w.total_recv_bytes ∧
    (send_msg T w msg len).2.total_sent_bytes = w.total_sent_bytes ∧
    (send_msg T w msg len).2.exit_flag = w.exit_flag ∧
    (send_msg T w msg len).2.print_st_flag = w.print_st_flag ∧
    (send_msg T w msg len).2.print_on_exit = w.print_on_exit ∧
    -1 ≤ (send_msg T w msg len).1 := by
  cases h1 : T.send w.net (int_bytes len) 4 with
  | mk resp net1 =>
    cases resp with
    | error code =>
      have e1 := udt_send_error T w (int_bytes len) 4 code net1
        (by rw [take_four_int_bytes]; exact h1)
      rw [take_four_int_bytes] at e1
      unfold send_msg
      rw [e1]
      simp [transport_only, stdout_bytes, recv_msg_rets, kills, send_msg_calls,
        accepted_total, sent_lengths, status_reports]
    | accepted n =>
      have e1 := udt_send_accepted T w (int_bytes len) 4 n net1
        (by rw [take_four_int_bytes]; exact h1)
      rw [take_four_int_bytes] at e1
      cases h2 : T.send net1 (msg.take len.toNat) len with
      | mk resp2 net2 =>
        cases resp2 with
        | error code =>
          have e2 := udt_send_error T
            { w with net := net1, trace := w.trace ++
                [Event.udt_send (int_bytes len) 4 ((min n (4 : Int).toNat : Nat) : Int)] }
            msg len code net2 h2
          unfold send_msg
          rw [e1]
          simp only [length_ne_UDT_ERROR, if_false]
          rw [e2]
          simp [transport_only, stdout_bytes, recv_msg_rets, kills, send_msg_calls,
            accepted_total, sent_lengths, status_reports]
        | accepted m =>
          have e2 := udt_send_accepted T
            { w with net := net1, trace := w.trace ++
                [Event.udt_send (int_bytes len) 4 ((min n (4 : Int).toNat : Nat) : Int)] }
            msg len m net2 h2
          unfold send_msg
          rw [e1]
          simp only [length_ne_UDT_ERROR, if_false]
          rw [e2]
          simp only [length_ne_UDT_ERROR, if_false]
          refine ⟨?_, trivial, trivial, trivial, trivial, trivial, by omega⟩
          simp [transport_only, stdout_bytes, recv_msg_rets, kills, send_msg_calls,
            accepted_total, sent_lengths, status_reports]

theorem accepted_total_append (l1 l2 : List Event) :
    accepted_total (l1 ++ l2) = accepted_total l1 + accepted_total l2 := by
  induction l1 with
  | nil => simp [accepted_total]
  | cons e t ih => cases e <;> simp [accepted_total, ih, add_assoc]

theorem sent_lengths_append (l1 l2 : List Event) :
    sent_lengths (l1 ++ l2) = sent_lengths l1 + sent_lengths l2 := by
  induction l1 with
  | nil => simp [sent_lengths]
  | cons e t ih => cases e <;> simp [sent_lengths, ih, add_assoc]

theorem counts_sent_refl (w : World σ) (hw : w.total_sent_bytes < 18446744073709551616) :
    counts_sent w w :=
  ⟨[], by simp, by simp [accepted_total]; omega⟩

theorem counts_sent_trans {w w1 w2 : World σ} (h1 : counts_sent w w1)
    (h2 : counts_sent w1 w2) : counts_sent w w2 := by
  obtain ⟨l1, ht1, hc1⟩ := h1
  obtain ⟨l2, ht2, hc2⟩ := h2
  refine ⟨l1 ++ l2, by rw [ht2, ht1, List.append_assoc], ?_⟩
  rw [hc2, hc1, accepted_total_append]
  omega

theorem counts_sent_bound {w w1 : World σ} (h : counts_sent w w1) :
    w1.total_sent_bytes < 18446744073709551616 := by
  obtain ⟨l, _, hc⟩ := h
  omega

theorem counts_sent_quiet (w w1 : World σ) (l : List Event)
    (hw : w.total_sent_bytes < 18446744073709551616)
    (ht : w1.trace = w.trace ++ l) (ha : accepted_total l = 0)
    (hs : w1.total_sent_bytes = w.total_sent_bytes) : counts_sent w w1 :=
  ⟨l, ht, by rw [hs, ha]; omega⟩

theorem send_chunk_counts (T : Transport σ) (w : World σ) (buf : List Byte) (len : Int)
    (hw : w.total_sent_bytes < 18446744073709551616) :
    counts_sent w (send_chunk T w buf len) := by
  obtain ⟨⟨l, hl, hto⟩, _, hsent, _, _, _, hret⟩ := send_msg_frame T w buf len
  obtain ⟨_, _, _, _, hacc, _, _⟩ := hto
  unfold send_chunk
  cases hsm : send_msg T w buf len with
  | mk r w1 =>
    rw [hsm] at hl hsent hret
    simp only at hl hsent hret
    by_cases hr : r = -1
    · refine ⟨l ++ [Event.send_msg (buf.take len.toNat) len r], ?_, ?_⟩
      · simp [hr, hl]
      · simp [hr, hsent, accepted_total_append, hacc, accepted_total]
        omega
    · refine ⟨l ++ [Event.send_msg (buf.take len.toNat) len r], ?_, ?_⟩
      · simp [hr, hl]
      · simp only [hr, if_false, hsent, accepted_total_append, hacc, accepted_total]
        omega

theorem deliver_frame (sg : Sig) (w : World σ) :
    (deliver sg w).trace = w.trace ∧
    (deliver sg w).total_sent_bytes = w.total_sent_bytes ∧
    (deliver sg w).total_recv_bytes = w.total_recv_bytes ∧
    (deliver sg w).net = w.net ∧
    (deliver sg w).print_on_exit = w.print_on_exit ∧
    (deliver sg w).exit_flag = (w.exit_flag || sg.term) ∧
    (deliver sg w).print_st_flag = (w.print_st_flag || sg.usr1) := by
  unfold deliver signal_handler siguser1_handler
  cases sg.term <;> cases sg.usr1 <;> simp

theorem turn_counts (w : World σ) (it : Iter) (n : Int)
    (hw : w.total_sent_bytes < 18446744073709551616) :
    counts_sent w (deliver it.before_body (deliver it.in_condition
      { deliver it.during_read w with
        trace := (deliver it.during_read w).trace ++ [Event.read_stdin n] })) ∧
    counts_sent w (deliver it.in_condition
      { deliver it.during_read w with
        trace := (deliver it.during_read w).trace ++ [Event.read_stdin n] }) ∧
    counts_sent w (print_total_sent_recvd_bytes
      { deliver it.before_body (deliver it.in_condition
        { deliver it.during_read w with
          trace := (deliver it.during_read w).trace ++ [Event.read_stdin n] }) with
        print_st_flag := false }) := by
  refine ⟨counts_sent_quiet w _ [Event.read_stdin n] hw ?_ rfl ?_,
    counts_sent_quiet w _ [Event.read_stdin n] hw ?_ rfl ?_,
    counts_sent_quiet w _ [Event.read_stdin n, Event.print_totals w.total_recv_bytes
      w.total_sent_bytes] hw ?_ rfl ?_⟩
  · simp [deliver_frame]
  · simp [deliver_frame]
  · simp [deliver_frame]
  · simp [deliver_frame]
  · simp [deliver_frame, print_total_sent_recvd_bytes]
  · simp [deliver_frame, print_total_sent_recvd_bytes]

theorem server_loop_counts (T : Transport σ) (its : List Iter) :
    ∀ (w : World σ) (buf : List Byte), w.total_sent_bytes < 18446744073709551616 →
      counts_sent w (server_loop T its w buf).2.2 := by
  induction its with
  | nil => intro w buf hw; exact counts_sent_refl w hw
  | cons it rest ih =>
    intro w buf hw
    obtain ⟨h4, h3, h5⟩ := turn_counts w it (read_stdin it.rd buf).1 hw
    simp only [server_loop]
    split
    · split
      · exact counts_sent_trans h5 (ih _ _ (counts_sent_bound h5))
      · split
        · exact h4
        · have hc := send_chunk_counts T _ (read_stdin it.rd buf).2 (read_stdin it.rd buf).1
            (counts_sent_bound h4)
          have h6 := counts_sent_trans h4 hc
          exact counts_sent_trans h6 (ih _ _ (counts_sent_bound h6))
    · exact h3

theorem client_loop_counts (T : Transport σ) (its : List Iter) :
    ∀ (w : World σ) (buf : List Byte), w.total_sent_bytes < 18446744073709551616 →
      counts_sent w (client_loop T its w buf).2.2 := by
  induction its with
  | nil => intro w buf hw; exact counts_sent_refl w hw
  | cons it rest ih =>
    intro w buf hw
    obtain ⟨h4, h3, h5⟩ := turn_counts w it (read_stdin it.rd buf).1 hw
    simp only [client_loop]
    split
    · split
      · split
        · exact counts_sent_trans h5 (ih _ _ (counts_sent_bound h5))
        · have hc := send_chunk_counts T _ (read_stdin it.rd buf).2 (read_stdin it.rd buf).1
            (counts_sent_bound h5)
          have h6 := counts_sent_trans h5 hc
          exact counts_sent_trans h6 (ih _ _ (counts_sent_bound h6))
      · have hc := send_chunk_counts T _ (read_stdin it.rd buf).2 (read_stdin it.rd buf).1
          (counts_sent_bound h4)
        have h6 := counts_sent_trans h4 hc
        exact counts_sent_trans h6 (ih _ _ (counts_sent_bound h6))
    · exact h3

theorem accepted_total_full (l : List Event)
    (h : ∀ c ∈ send_msg_calls l, c.2.2 = -1 ∨ c.2.2 = c.2.1) :
    accepted_total l = sent_lengths l := by
  induction l with
  | nil => rfl
  | cons e t ih =>
    cases e with
    | send_msg chunk len r =>
      have ht : ∀ c ∈ send_msg_calls t, c.2.2 = -1 ∨ c.2.2 = c.2.1 := by
        intro c hc
        exact h c (by simp [send_msg_calls] at hc ⊢; exact Or.inr hc)
      have hh := h (chunk, len, r) (by simp [send_msg_calls])
      simp only [accepted_total, sent_lengths, ih ht]
      rcases hh with hh | hh
      · simp only at hh; simp [hh]
      · simp only at hh; simp [hh]
    | _ =>
      simp only [accepted_total, sent_lengths]
      exact ih (by intro c hc; exact h c (by simpa [send_msg_calls] using hc))

/-- C4, as stated, fails: the transport accepts only three of the five bytes
of "hello"; `send_msg` succeeds (it returns 3) and `total_sent_bytes` ends at
3, not at the length 5 of the chunk. -/
theorem C4_sent_counter_counterexample :
    (server_loop scripted hello_then_eof accepting_three []).1 = LoopEnd.left ∧
    send_msg_calls (new_events accepting_three
      (server_loop scripted hello_then_eof accepting_three []).2.2) = [(hello, 5, 3)] ∧
    (server_loop scripted hello_then_eof accepting_three []).2.2.total_sent_bytes = 3 ∧
    ((server_loop scripted hello_then_eof accepting_three []).2.2.total_sent_bytes : Int) ≠
      (accepting_three.total_sent_bytes : Int) +
        sent_lengths (new_events accepting_three
          (server_loop scripted hello_then_eof accepting_three []).2.2) := by
  decide

/-- C4, amended: over any run of the outbound loop of `server_mode` and of
`client_mode`, `total_sent_bytes` ends at its initial value plus the sum of
the values returned by the calls of `send_msg` that did not return -1 (the
payload bytes the transport accepted), modulo 2^64; a call that returned -1
adds nothing. When every successful call returned the length it was given,
that sum is the sum of the lengths of the chunks sent. -/
theorem C4_sent_counter (T : Transport σ) (its : List Iter) (w : World σ) (buf : List Byte)
    (hw : w.total_sent_bytes < 18446744073709551616) :
    (((server_loop T its w buf).2.2.total_sent_bytes : Int) =
        ((w.total_sent_bytes : Int) +
          accepted_total (new_events w (server_loop T its w buf).2.2)) %
            18446744073709551616 ∧
      ((∀ c ∈ send_msg_calls (new_events w (server_loop T its w buf).2.2),
          c.2.2 = -1 ∨ c.2.2 = c.2.1) →
        ((server_loop T its w buf).2.2.total_sent_bytes : Int) =
          ((w.total_sent_bytes : Int) +
            sent_lengths (new_events w (server_loop T its w buf).2.2)) %
              18446744073709551616)) ∧
    (((client_loop T its w buf).2.2.total_sent_bytes : Int) =
        ((w.total_sent_bytes : Int) +
          accepted_total (new_events w (client_loop T its w buf).2.2)) %
            18446744073709551616 ∧
      ((∀ c ∈ send_msg_calls (new_events w (client_loop T its w buf).2.2),
          c.2.2 = -1 ∨ c.2.2 = c.2.1) →
        ((client_loop T its w buf).2.2.total_sent_bytes : Int) =
          ((w.total_sent_bytes : Int) +
            sent_lengths (new_events w (client_loop T its w buf).2.2)) %
              18446744073709551616)) := by
  obtain ⟨ls, hts, hcs⟩ := server_loop_counts T its w buf hw
  obtain ⟨lc, htc, hcc⟩ := client_loop_counts T its w buf hw
  rw [new_events_append w _ ls hts, new_events_append w _ lc htc]
  refine ⟨⟨hcs, fun h => ?_⟩, ⟨hcc, fun h => ?_⟩⟩
  · rw [← accepted_total_full ls h]; exact hcs
  · rw [← accepted_total_full lc h]; exact hcc

/-- C4 amended, on the connection that accepts three of the five bytes of
"hello": both loops end with the counter at 3. -/
theorem C4_sent_counter_witness :
    ((server_loop scripted hello_then_eof accepting_three []).2.2.total_sent_bytes : Int) =
      ((accepting_three.total_sent_bytes : Int) +
        accepted_total (new_events accepting_three
          (server_loop scripted hello_then_eof accepting_three []).2.2)) %
            18446744073709551616 ∧
    ((client_loop scripted hello_then_eof accepting_three []).2.2.total_sent_bytes : Int) =
      ((accepting_three.total_sent_bytes : Int) +
        accepted_total (new_events accepting_three
          (client_loop scripted hello_then_eof accepting_three []).2.2)) %
            18446744073709551616 :=
  ⟨(C4_sent_counter scripted hello_then_eof accepting_three [] (by decide)).1.1,
   (C4_sent_counter scripted hello_then_eof accepting_three [] (by decide)).2.1⟩

/-! ## C9 and C10: status requests in the outbound loops -/

/-- C9 at its failing inputs. In `server_mode`, a status request pending when
`read` delivers "hello" makes the loop print the counters once and go back to
`read`: `send_msg` is never called and nothing reaches the wire. In
`client_mode` the same happens to a chunk of exactly four bytes (`EINTR` is
4), while a chunk of five bytes is sent. -/
theorem C9_status_request_drops_chunk :
    ((server_loop stream [status_turn (ReadRes.data hello), plain_turn (ReadRes.data [])]
        (World.init []) []).1 = LoopEnd.left ∧
      (server_loop stream [status_turn (ReadRes.data hello), plain_turn (ReadRes.data [])]
        (World.init []) []).2.2.trace =
          [Event.read_stdin 5, Event.print_totals 0 0, Event.read_stdin 0] ∧
      send_msg_calls (server_loop stream
        [status_turn (ReadRes.data hello), plain_turn (ReadRes.data [])]
        (World.init []) []).2.2.trace = [] ∧
      (server_loop stream [status_turn (ReadRes.data hello), plain_turn (ReadRes.data [])]
        (World.init []) []).2.2.net = []) ∧
    (send_msg_calls (client_loop stream
        [status_turn (ReadRes.data [104, 101, 108, 108]), plain_turn (ReadRes.data [])]
        (World.init []) []).2.2.trace = [] ∧
      status_reports (client_loop stream
        [status_turn (ReadRes.data [104, 101, 108, 108]), plain_turn (ReadRes.data [])]
        (World.init []) []).2.2.trace = 1) ∧
    send_msg_calls (client_loop stream
        [status_turn (ReadRes.data hello), plain_turn (ReadRes.data [])]
        (World.init []) []).2.2.trace = [(hello, 5, 5)] := by
  decide

/-- C10 at its failing input. In `client_mode`, a `read` interrupted by
SIGUSR1 returns -1; the loop prints the counters and then calls `send_msg`
with `msg_len = -1`, which puts the length -1 on the wire; the `recv_msg` of
the peer fails its length check on it. -/
theorem C10_client_sends_negative_length :
    send_msg_calls (client_loop stream
        [status_turn ReadRes.fail, plain_turn (ReadRes.data [])]
        (World.init []) hello).2.2.trace = [([], -1, 0)] ∧
    ¬ (0 ≤ (-1 : Int)) ∧
    (client_loop stream [status_turn ReadRes.fail, plain_turn (ReadRes.data [])]
        (World.init []) hello).2.2.net = int_bytes (-1) ∧
    (recv_msg stream
        (World.init (client_loop stream
          [status_turn ReadRes.fail, plain_turn (ReadRes.data [])]
          (World.init []) hello).2.2.net) [] RECV_BUFFER_SIZE).1 = Outcome.abort := by
  decide

/-! ## C8: shutdown after the loss of the peer -/

theorem recv_msg_fails (T : Transport σ) (w : World σ) (buffer : List Byte)
    (size code : Int) (h : read_fails T w size code) :
    ∃ b w1 l, recv_msg T w buffer size = (Outcome.ret (-1), b, w1) ∧
      w1.last_recv_err_code = code ∧ w1.trace = w.trace ++ l ∧ kills l = [] ∧
      (code = UDT_ERR_CONN_LOST → diags l = []) := by
  rcases h with ⟨net1, h1⟩ | ⟨bytes, net1, net2, h1, hin, h2⟩
  · have e1 := udt_recv_error T w 4 code net1 h1
    rw [recv_msg_size_failed T w _ buffer [] size e1]
    by_cases hc : code = UDT_ERR_CONN_LOST
    · simp only [hc, ne_eq, not_true_eq_false, if_false]
      exact ⟨_, _, [Event.udt_recv 4 UDT_ERROR], rfl, rfl, rfl, by simp [kills],
        by simp [diags]⟩
    · simp only [hc, ne_eq, not_false_eq_true, if_true]
      exact ⟨_, _, [Event.udt_recv 4 UDT_ERROR, Event.stderr Diag.recv_size],
        rfl, rfl, by simp, by simp [kills], by simp [hc]⟩
  · have e1 := udt_recv_data T w 4 bytes net1 h1
    have h4 : (4 : Int).toNat = 4 := rfl
    rw [h4] at e1
    have e2 := udt_recv_error T
      { w with net := net1, trace := w.trace ++
          [Event.udt_recv 4 ((List.take 4 bytes).length : Int)] } _ code net2 h2
    rw [recv_msg_data_failed T w _ _ buffer _ _ size _ _ e1
      (length_ne_UDT_ERROR _) rfl (by omega) e2]
    by_cases hc : code = UDT_ERR_CONN_LOST
    · simp only [hc, ne_eq, not_true_eq_false, if_false]
      exact ⟨_, _, [Event.udt_recv 4 ((List.take 4 bytes).length : Int),
          Event.udt_recv (bytes_int (store (int_bytes 0) (bytes.take 4))) UDT_ERROR],
        rfl, rfl, by simp, by simp [kills], by simp [diags]⟩
    · simp only [hc, ne_eq, not_false_eq_true, if_true]
      exact ⟨_, _, [Event.udt_recv 4 ((List.take 4 bytes).length : Int),
          Event.udt_recv (bytes_int (store (int_bytes 0) (bytes.take 4))) UDT_ERROR,
          Event.stderr Diag.recv_data],
        rfl, rfl, by simp, by simp [kills], by simp [hc]⟩

theorem send_chunk_flags (T : Transport σ) (w : World σ) (buf : List Byte) (len : Int) :
    (send_chunk T w buf len).exit_flag = w.exit_flag ∧
    (send_chunk T w buf len).print_st_flag = w.print_st_flag ∧
    (send_chunk T w buf len).print_on_exit = w.print_on_exit := by
  obtain ⟨_, _, _, he, hp, ho, _⟩ := send_msg_frame T w buf len
  unfold send_chunk
  cases hsm : send_msg T w buf len with
  | mk r w1 =>
    rw [hsm] at he hp ho
    simp only at he hp ho
    by_cases hr : r = -1 <;> simp [hr, he, hp, ho]

theorem server_loop_leaves (T : Transport σ) (it : Iter) (rest : List Iter)
    (hcalm : it.calm) (pre : List Iter) :
    ∀ (w : World σ) (buf : List Byte), w.exit_flag = true →
      (pre ≠ [] ∨ w.print_st_flag = false) →
      (server_loop T (pre ++ it :: rest) w buf).1 = LoopEnd.left := by
  obtain ⟨hc1, hc2⟩ := hcalm
  induction pre with
  | nil =>
    intro w buf hexit hpre
    have hp : w.print_st_flag = false := by
      rcases hpre with h | h
      · exact absurd rfl h
      · exact h
    simp [server_loop, deliver_frame, hexit, hp, hc1, hc2]
  | cons p ps ih =>
    intro w buf hexit _
    simp only [List.cons_append, server_loop]
    split
    · split
      · exact ih _ _ (by simp [print_total_sent_recvd_bytes, deliver_frame, hexit])
          (Or.inr (by simp [print_total_sent_recvd_bytes]))
      · rename_i hcond hbody
        simp [deliver_frame, hexit] at hcond hbody
        simp [hbody] at hcond
    · rfl

theorem client_loop_leaves (T : Transport σ) (it : Iter) (rest : List Iter)
    (hcalm : it.calm) (pre : List Iter) :
    ∀ (w : World σ) (buf : List Byte), w.exit_flag = true →
      (pre ≠ [] ∨ w.print_st_flag = false) →
      (client_loop T (pre ++ it :: rest) w buf).1 = LoopEnd.left := by
  obtain ⟨hc1, hc2⟩ := hcalm
  induction pre with
  | nil =>
    intro w buf hexit hpre
    have hp : w.print_st_flag = false := by
      rcases hpre with h | h
      · exact absurd rfl h
      · exact h
    simp [client_loop, deliver_frame, hexit, hp, hc1, hc2]
  | cons p ps ih =>
    intro w buf hexit _
    simp only [List.cons_append, client_loop]
    split
    · split
      · split
        · exact ih _ _ (by simp [print_total_sent_recvd_bytes, deliver_frame, hexit])
            (Or.inr (by simp [print_total_sent_recvd_bytes]))
        · exact ih _ _
            (by simp [send_chunk_flags, print_total_sent_recvd_bytes, deliver_frame, hexit])
            (Or.inr (by simp [send_chunk_flags, print_total_sent_recvd_bytes]))
      · rename_i hcond hbody
        simp [deliver_frame, hexit] at hcond hbody
        simp [hbody] at hcond
    · rfl

theorem server_mode_returns (T : Transport σ) (its : List Iter) (w : World σ)
    (buf : List Byte) (h : (server_loop T its w buf).1 = LoopEnd.left) :
    ∃ w2, server_mode T its w buf = some (0, w2) ∧
      w2.trace.getLast? = some Event.udt_close := by
  unfold server_mode
  cases hl : server_loop T its w buf with
  | mk e rest =>
    cases rest with
    | mk b w1 =>
      rw [hl] at h
      simp only at h
      subst h
      exact ⟨_, rfl, by simp⟩

theorem client_mode_returns (T : Transport σ) (its : List Iter) (w : World σ)
    (buf : List Byte) (h : (client_loop T its w buf).1 = LoopEnd.left) :
    ∃ w2, client_mode T its w buf = some (0, w2) ∧
      w2.trace.getLast? = some Event.udt_close := by
  unfold client_mode
  cases hl : client_loop T its w buf with
  | mk e rest =>
    cases rest with
    | mk b w1 =>
      rw [hl] at h
      simp only at h
      subst h
      exact ⟨_, rfl, by simp⟩

theorem main_succeeds (T : Transport σ) (listen_flag : Bool) (cleanup_ret : Int)
    (its : List Iter) (w : World σ) (buf : List Byte)
    (hs : ∃ w2, server_mode T its w buf = some (0, w2))
    (hc : ∃ w2, client_mode T its w buf = some (0, w2)) :
    ∃ w3, main T listen_flag cleanup_ret its w buf = some (EXIT_SUCCESS, w3) := by
  obtain ⟨ws, hs⟩ := hs
  obtain ⟨wc, hc⟩ := hc
  unfold main
  cases listen_flag
  · simp only [Bool.false_eq_true, if_false, hc]
    simp only [ne_eq, not_true_eq_false, if_false]
    split <;> split <;> exact ⟨_, rfl⟩
  · simp only [if_true, hs]
    simp only [ne_eq, not_true_eq_false, if_false]
    split <;> split <;> exact ⟨_, rfl⟩

/-! ## C11: the stop condition of the outbound loops -/

/-- C11, as stated, fails for a set `print_st_flag`: with a status request
pending, a `read` that returns end of input does not stop the loop of
`server_mode` in that turn (the counters are printed and `read` is called
again), and neither does a `read` that returns while `exit_flag` is set; the
loop of `client_mode` reads again as well. -/
theorem C11_stop_condition_counterexample :
    (server_loop stream [status_turn (ReadRes.data []), plain_turn (ReadRes.data [])]
        (World.init []) []).2.2.trace =
      [Event.read_stdin 0, Event.print_totals 0 0, Event.read_stdin 0] ∧
    (signal_handler (World.init ([] : List Byte))).exit_flag = true ∧
    (server_loop stream [status_turn (ReadRes.data hello), plain_turn ReadRes.fail]
        (signal_handler (World.init [])) []).2.2.trace =
      [Event.read_stdin 5, Event.print_totals 0 0, Event.read_stdin (-1)] ∧
    stdin_reads (client_loop stream
        [status_turn (ReadRes.data []), plain_turn (ReadRes.data [])]
        (World.init []) []).2.2.trace = [0, 0] := by
  decide

theorem status_reports_append (l1 l2 : List Event) :
    status_reports (l1 ++ l2) = status_reports l1 + status_reports l2 := by
  simp [status_reports, List.countP_append]

theorem send_chunk_trace (T : Transport σ) (w : World σ) (buf : List Byte) (len : Int) :
    ∃ l, (send_chunk T w buf len).trace = w.trace ++ l ∧ status_reports l = 0 := by
  obtain ⟨⟨l, hl, hto⟩, _⟩ := send_msg_frame T w buf len
  obtain ⟨_, _, _, _, _, _, hst⟩ := hto
  unfold send_chunk
  cases hsm : send_msg T w buf len with
  | mk r w1 =>
    rw [hsm] at hl
    simp only at hl
    refine ⟨l ++ [Event.send_msg (buf.take len.toNat) len r], ?_, ?_⟩
    · by_cases hr : r = -1 <;> simp [hr, hl]
    · rw [status_reports_append, hst]
      simp [status_reports]

/-- C11, amended. In both `server_mode` and `client_mode`: when `read`
returns end of input (0), or returns while `exit_flag` is set, and no status
request is pending when the loop condition reads `print_st_flag`, the loop
stops in that turn: that `read` is the only event of the turn (no `send_msg`,
no further `read`), the connection is closed and 0 is returned. When a status
request is pending the loop does not stop in that turn: the counters are
printed once, the flag is cleared and the loop goes on with the next `read`. -/
theorem C11_stop_condition (T : Transport σ) (w : World σ) (it : Iter) (rest : List Iter)
    (buf : List Byte) :
    (((read_stdin it.rd buf).1 = 0 ∨ (deliver it.during_read w).exit_flag = true) →
      (deliver it.in_condition (deliver it.during_read w)).print_st_flag = false →
      (∃ w1, server_loop T (it :: rest) w buf = (LoopEnd.left, (read_stdin it.rd buf).2, w1) ∧
        w1.trace = w.trace ++ [Event.read_stdin (read_stdin it.rd buf).1] ∧
        w1.net = w.net ∧
        ∃ w2, server_mode T (it :: rest) w buf = some (0, w2) ∧
          w2.trace = w.trace ++ [Event.read_stdin (read_stdin it.rd buf).1, Event.udt_close]) ∧
      (∃ w1, client_loop T (it :: rest) w buf = (LoopEnd.left, (read_stdin it.rd buf).2, w1) ∧
        w1.trace = w.trace ++ [Event.read_stdin (read_stdin it.rd buf).1] ∧
        w1.net = w.net ∧
        ∃ w2, client_mode T (it :: rest) w buf = some (0, w2) ∧
          w2.trace = w.trace ++ [Event.read_stdin (read_stdin it.rd buf).1, Event.udt_close])) ∧
    ((deliver it.in_condition (deliver it.during_read w)).print_st_flag = true →
      (∃ w1, server_loop T (it :: rest) w buf = server_loop T rest w1 (read_stdin it.rd buf).2 ∧
        w1.print_st_flag = false ∧
        w1.trace = w.trace ++ [Event.read_stdin (read_stdin it.rd buf).1,
          Event.print_totals w.total_recv_bytes w.total_sent_bytes]) ∧
      (∃ w1 l, client_loop T (it :: rest) w buf = client_loop T rest w1 (read_stdin it.rd buf).2 ∧
        w1.print_st_flag = false ∧
        w1.trace = w.trace ++ Event.read_stdin (read_stdin it.rd buf).1 :: l ∧
        status_reports l = 1)) := by
  constructor
  · intro hstop hclear
    have hcond : (decide ((read_stdin it.rd buf).1 > 0) &&
        !(deliver it.during_read w).exit_flag) = false := by
      rcases hstop with h | h
      · simp [h]
      · simp [h]
    have hp : (deliver it.in_condition
        { deliver it.during_read w with
          trace := (deliver it.during_read w).trace ++
            [Event.read_stdin (read_stdin it.rd buf).1] }).print_st_flag = false := by
      simp only [deliver_frame] at hclear ⊢
      exact hclear
    constructor
    · have hloop : server_loop T (it :: rest) w buf =
          (LoopEnd.left, (read_stdin it.rd buf).2, deliver it.in_condition
            { deliver it.during_read w with
              trace := (deliver it.during_read w).trace ++
                [Event.read_stdin (read_stdin it.rd buf).1] }) := by
        simp only [server_loop, hcond, hp]
        simp
      refine ⟨_, hloop, by simp [deliver_frame], by simp [deliver_frame], ?_⟩
      unfold server_mode
      rw [hloop]
      exact ⟨_, rfl, by simp [deliver_frame]⟩
    · have hloop : client_loop T (it :: rest) w buf =
          (LoopEnd.left, (read_stdin it.rd buf).2, deliver it.in_condition
            { deliver it.during_read w with
              trace := (deliver it.during_read w).trace ++
                [Event.read_stdin (read_stdin it.rd buf).1] }) := by
        simp only [client_loop, hcond, hp]
        simp
      refine ⟨_, hloop, by simp [deliver_frame], by simp [deliver_frame], ?_⟩
      unfold client_mode
      rw [hloop]
      exact ⟨_, rfl, by simp [deliver_frame]⟩
  · intro hset
    have hp : (deliver it.in_condition
        { deliver it.during_read w with
          trace := (deliver it.during_read w).trace ++
            [Event.read_stdin (read_stdin it.rd buf).1] }).print_st_flag = true := by
      simp only [deliver_frame] at hset ⊢
      exact hset
    have hp4 : (deliver it.before_body (deliver it.in_condition
        { deliver it.during_read w with
          trace := (deliver it.during_read w).trace ++
            [Event.read_stdin (read_stdin it.rd buf).1] })).print_st_flag = true := by
      rw [(deliver_frame it.before_body _).2.2.2.2.2.2, hp]
      rfl
    have hs : server_loop T (it :: rest) w buf = server_loop T rest
        (print_total_sent_recvd_bytes
          { deliver it.before_body (deliver it.in_condition
            { deliver it.during_read w with
              trace := (deliver it.during_read w).trace ++
                [Event.read_stdin (read_stdin it.rd buf).1] }) with
            print_st_flag := false }) (read_stdin it.rd buf).2 := by
      simp only [server_loop, hp, hp4, Bool.or_true, if_true]
    constructor
    · exact ⟨_, hs, by simp [print_total_sent_recvd_bytes],
        by simp [print_total_sent_recvd_bytes, deliver_frame]⟩
    · by_cases he : (read_stdin it.rd buf).1 = EINTR
      · have hc : client_loop T (it :: rest) w buf = client_loop T rest
            (print_total_sent_recvd_bytes
          { deliver it.before_body (deliver it.in_condition
            { deliver it.during_read w with
              trace := (deliver it.during_read w).trace ++
                [Event.read_stdin (read_stdin it.rd buf).1] }) with
            print_st_flag := false }) (read_stdin it.rd buf).2 := by
          simp only [client_loop, hp, hp4, Bool.or_true, if_true]
          rw [if_pos he]
        exact ⟨_, [Event.print_totals w.total_recv_bytes w.total_sent_bytes], hc,
          by simp [print_total_sent_recvd_bytes],
          by simp [print_total_sent_recvd_bytes, deliver_frame],
          by simp [status_reports]⟩
      · obtain ⟨l, hl, hst⟩ := send_chunk_trace T
          (print_total_sent_recvd_bytes
          { deliver it.before_body (deliver it.in_condition
            { deliver it.during_read w with
              trace := (deliver it.during_read w).trace ++
                [Event.read_stdin (read_stdin it.rd buf).1] }) with
            print_st_flag := false })
          (read_stdin it.rd buf).2 (read_stdin it.rd buf).1
        have hc : client_loop T (it :: rest) w buf = client_loop T rest
            (send_chunk T
              (print_total_sent_recvd_bytes
          { deliver it.before_body (deliver it.in_condition
            { deliver it.during_read w with
              trace := (deliver it.during_read w).trace ++
                [Event.read_stdin (read_stdin it.rd buf).1] }) with
            print_st_flag := false })
              (read_stdin it.rd buf).2 (read_stdin it.rd buf).1) (read_stdin it.rd buf).2 := by
          simp only [client_loop, hp, hp4, Bool.or_true, if_true]
          rw [if_neg he]
        have hst2 : status_reports
            (Event.print_totals w.total_recv_bytes w.total_sent_bytes :: l) = 1 := by
          have h2 : status_reports
              (Event.print_totals w.total_recv_bytes w.total_sent_bytes :: l) =
              status_reports [Event.print_totals w.total_recv_bytes w.total_sent_bytes] +
                status_reports l := by
            rw [← status_reports_append]; rfl
          rw [h2, hst]
          simp [status_reports]
        refine ⟨_, Event.print_totals w.total_recv_bytes w.total_sent_bytes :: l, hc,
          ?_, ?_, hst2⟩
        · rw [(send_chunk_flags T _ _ _).2.1]
          simp [print_total_sent_recvd_bytes]
        · rw [hl]
          simp [print_total_sent_recvd_bytes, deliver_frame]

/-- C11 amended, on the byte stream: at end of input without a status request
both loops stop after that one `read` although a further turn is offered; at
end of input with a status request pending the loop of `server_mode` prints
the counters and goes on with the next turn. -/
theorem C11_stop_condition_witness :
    ((∃ w1, server_loop stream (plain_turn (ReadRes.data []) :: [plain_turn (ReadRes.data hello)])
          peer_gone [] =
            (LoopEnd.left, (read_stdin (plain_turn (ReadRes.data [])).rd []).2, w1) ∧
        w1.trace = peer_gone.trace ++
          [Event.read_stdin (read_stdin (plain_turn (ReadRes.data [])).rd []).1] ∧
        w1.net = peer_gone.net ∧
        ∃ w2, server_mode stream
            (plain_turn (ReadRes.data []) :: [plain_turn (ReadRes.data hello)]) peer_gone [] =
              some (0, w2) ∧
          w2.trace = peer_gone.trace ++
            [Event.read_stdin (read_stdin (plain_turn (ReadRes.data [])).rd []).1,
              Event.udt_close]) ∧
      (∃ w1, client_loop stream (plain_turn (ReadRes.data []) :: [plain_turn (ReadRes.data hello)])
          peer_gone [] =
            (LoopEnd.left, (read_stdin (plain_turn (ReadRes.data [])).rd []).2, w1) ∧
        w1.trace = peer_gone.trace ++
          [Event.read_stdin (read_stdin (plain_turn (ReadRes.data [])).rd []).1] ∧
        w1.net = peer_gone.net ∧
        ∃ w2, client_mode stream
            (plain_turn (ReadRes.data []) :: [plain_turn (ReadRes.data hello)]) peer_gone [] =
              some (0, w2) ∧
          w2.trace = peer_gone.trace ++
            [Event.read_stdin (read_stdin (plain_turn (ReadRes.data [])).rd []).1,
              Event.udt_close])) ∧
    (∃ w1, server_loop stream (status_turn (ReadRes.data []) :: [plain_turn (ReadRes.data [])])
        peer_gone [] =
          server_loop stream [plain_turn (ReadRes.data [])] w1
            (read_stdin (status_turn (ReadRes.data [])).rd []).2 ∧
      w1.print_st_flag = false ∧
      w1.trace = peer_gone.trace ++
        [Event.read_stdin (read_stdin (status_turn (ReadRes.data [])).rd []).1,
          Event.print_totals peer_gone.total_recv_bytes peer_gone.total_sent_bytes]) :=
  ⟨(C11_stop_condition stream peer_gone (plain_turn (ReadRes.data []))
      [plain_turn (ReadRes.data hello)] []).1 (Or.inl (by decide)) (by decide),
   ((C11_stop_condition stream peer_gone (status_turn (ReadRes.data []))
      [plain_turn (ReadRes.data [])] []).2 (by decide)).1⟩

/-! ## C8, continued: when the outbound loop is left after a stop request -/

theorem server_loop_stop_turn (T : Transport σ) (w : World σ) (it : Iter)
    (rest : List Iter) (buf : List Byte) (hexit : w.exit_flag = true)
    (hclear : (deliver it.in_condition (deliver it.during_read w)).print_st_flag = false) :
    server_loop T (it :: rest) w buf =
      (LoopEnd.left, (read_stdin it.rd buf).2, deliver it.in_condition
        { deliver it.during_read w with
          trace := (deliver it.during_read w).trace ++
            [Event.read_stdin (read_stdin it.rd buf).1] }) := by
  have hcond : (decide ((read_stdin it.rd buf).1 > 0) &&
      !(deliver it.during_read w).exit_flag) = false := by
    simp [deliver_frame, hexit]
  have hp : (deliver it.in_condition
      { deliver it.during_read w with
          trace := (deliver it.during_read w).trace ++
            [Event.read_stdin (read_stdin it.rd buf).1] }).print_st_flag = false := by
    simp only [deliver_frame] at hclear ⊢
    exact hclear
  simp only [server_loop, hcond, hp]
  simp

theorem client_loop_stop_turn (T : Transport σ) (w : World σ) (it : Iter)
    (rest : List Iter) (buf : List Byte) (hexit : w.exit_flag = true)
    (hclear : (deliver it.in_condition (deliver it.during_read w)).print_st_flag = false) :
    client_loop T (it :: rest) w buf =
      (LoopEnd.left, (read_stdin it.rd buf).2, deliver it.in_condition
        { deliver it.during_read w with
          trace := (deliver it.during_read w).trace ++
            [Event.read_stdin (read_stdin it.rd buf).1] }) := by
  have hcond : (decide ((read_stdin it.rd buf).1 > 0) &&
      !(deliver it.during_read w).exit_flag) = false := by
    simp [deliver_frame, hexit]
  have hp : (deliver it.in_condition
      { deliver it.during_read w with
          trace := (deliver it.during_read w).trace ++
            [Event.read_stdin (read_stdin it.rd buf).1] }).print_st_flag = false := by
    simp only [deliver_frame] at hclear ⊢
    exact hclear
  simp only [client_loop, hcond, hp]
  simp

theorem status_turn_flags (w : World σ) (it : Iter) (buf : List Byte)
    (hset : (deliver it.in_condition (deliver it.during_read w)).print_st_flag = true) :
    (deliver it.in_condition
      { deliver it.during_read w with
          trace := (deliver it.during_read w).trace ++
            [Event.read_stdin (read_stdin it.rd buf).1] }).print_st_flag = true ∧
    (deliver it.before_body (deliver it.in_condition
      { deliver it.during_read w with
          trace := (deliver it.during_read w).trace ++
            [Event.read_stdin (read_stdin it.rd buf).1] })).print_st_flag = true := by
  have hp : (deliver it.in_condition
      { deliver it.during_read w with
          trace := (deliver it.during_read w).trace ++
            [Event.read_stdin (read_stdin it.rd buf).1] }).print_st_flag = true := by
    simp only [deliver_frame] at hset ⊢
    exact hset
  refine ⟨hp, ?_⟩
  rw [(deliver_frame it.before_body _).2.2.2.2.2.2, hp]
  rfl

theorem server_loop_status_turn (T : Transport σ) (w : World σ) (it : Iter)
    (rest : List Iter) (buf : List Byte)
    (hset : (deliver it.in_condition (deliver it.during_read w)).print_st_flag = true) :
    server_loop T (it :: rest) w buf = server_loop T rest
        (print_total_sent_recvd_bytes
          { deliver it.before_body (deliver it.in_condition
            { deliver it.during_read w with
          trace := (deliver it.during_read w).trace ++
            [Event.read_stdin (read_stdin it.rd buf).1] }) with
            print_st_flag := false }) (read_stdin it.rd buf).2 := by
  obtain ⟨hp, hp4⟩ := status_turn_flags w it buf hset
  simp only [server_loop, hp, hp4, Bool.or_true, if_true]

theorem client_loop_status_turn (T : Transport σ) (w : World σ) (it : Iter)
    (buf : List Byte)
    (hset : (deliver it.in_condition (deliver it.during_read w)).print_st_flag = true) :
    ∃ w1, w1.exit_flag = (w.exit_flag || it.during_read.term || it.in_condition.term ||
        it.before_body.term) ∧ w1.print_st_flag = false ∧
      ∀ rest, client_loop T (it :: rest) w buf =
        client_loop T rest w1 (read_stdin it.rd buf).2 := by
  obtain ⟨hp, hp4⟩ := status_turn_flags w it buf hset
  by_cases he : (read_stdin it.rd buf).1 = EINTR
  · refine ⟨(print_total_sent_recvd_bytes
          { deliver it.before_body (deliver it.in_condition
            { deliver it.during_read w with
          trace := (deliver it.during_read w).trace ++
            [Event.read_stdin (read_stdin it.rd buf).1] }) with
            print_st_flag := false }), ?_, ?_, ?_⟩
    · simp [print_total_sent_recvd_bytes, deliver_frame]
    · simp [print_total_sent_recvd_bytes]
    · intro rest
      simp only [client_loop, hp, hp4, Bool.or_true, if_true]
      rw [if_pos he]
  · refine ⟨send_chunk T
        (print_total_sent_recvd_bytes
          { deliver it.before_body (deliver it.in_condition
            { deliver it.during_read w with
          trace := (deliver it.during_read w).trace ++
            [Event.read_stdin (read_stdin it.rd buf).1] }) with
            print_st_flag := false })
        (read_stdin it.rd buf).2 (read_stdin it.rd buf).1, ?_, ?_, ?_⟩
    · rw [(send_chunk_flags T _ _ _).1]
      simp [print_total_sent_recvd_bytes, deliver_frame]
    · rw [(send_chunk_flags T _ _ _).2.1]
      simp [print_total_sent_recvd_bytes]
    · intro rest
      simp only [client_loop, hp, hp4, Bool.or_true, if_true]
      rw [if_neg he]

theorem server_loop_leaves_at (T : Transport σ) (it : Iter) (hcalm : it.calm)
    (pre : List Iter) :
    ∀ (w : World σ) (buf : List Byte), w.exit_flag = true →
      (pre ≠ [] ∨ w.print_st_flag = false) →
      ∃ res : LoopEnd × List Byte × World σ, res.1 = LoopEnd.left ∧
        ∀ rest, server_loop T (pre ++ it :: rest) w buf = res := by
  obtain ⟨hc1, hc2⟩ := hcalm
  induction pre with
  | nil =>
    intro w buf hexit hpre
    have hp : w.print_st_flag = false := by
      rcases hpre with h | h
      · exact absurd rfl h
      · exact h
    have hclear : (deliver it.in_condition (deliver it.during_read w)).print_st_flag
        = false := by
      simp [deliver_frame, hp, hc1, hc2]
    exact ⟨_, rfl, fun rest => server_loop_stop_turn T w it rest buf hexit hclear⟩
  | cons p ps ih =>
    intro w buf hexit _
    by_cases hset : (deliver p.in_condition (deliver p.during_read w)).print_st_flag = true
    · obtain ⟨res, hleft, hres⟩ := ih
        (print_total_sent_recvd_bytes
          { deliver p.before_body (deliver p.in_condition
            { deliver p.during_read w with
              trace := (deliver p.during_read w).trace ++
                [Event.read_stdin (read_stdin p.rd buf).1] }) with
            print_st_flag := false })
        (read_stdin p.rd buf).2
        (by simp [print_total_sent_recvd_bytes, deliver_frame, hexit])
        (Or.inr (by simp [print_total_sent_recvd_bytes]))
      refine ⟨res, hleft, fun rest => ?_⟩
      rw [List.cons_append, server_loop_status_turn T w p _ buf hset]
      exact hres rest
    · have hclear : (deliver p.in_condition (deliver p.during_read w)).print_st_flag
          = false := by
        simpa using hset
      exact ⟨_, rfl, fun rest => by
        rw [List.cons_append]
        exact server_loop_stop_turn T w p _ buf hexit hclear⟩

theorem client_loop_leaves_at (T : Transport σ) (it : Iter) (hcalm : it.calm)
    (pre : List Iter) :
    ∀ (w : World σ) (buf : List Byte), w.exit_flag = true →
      (pre ≠ [] ∨ w.print_st_flag = false) →
      ∃ res : LoopEnd × List Byte × World σ, res.1 = LoopEnd.left ∧
        ∀ rest, client_loop T (pre ++ it :: rest) w buf = res := by
  obtain ⟨hc1, hc2⟩ := hcalm
  induction pre with
  | nil =>
    intro w buf hexit hpre
    have hp : w.print_st_flag = false := by
      rcases hpre with h | h
      · exact absurd rfl h
      · exact h
    have hclear : (deliver it.in_condition (deliver it.during_read w)).print_st_flag
        = false := by
      simp [deliver_frame, hp, hc1, hc2]
    exact ⟨_, rfl, fun rest => client_loop_stop_turn T w it rest buf hexit hclear⟩
  | cons p ps ih =>
    intro w buf hexit _
    by_cases hset : (deliver p.in_condition (deliver p.during_read w)).print_st_flag = true
    · obtain ⟨w1, he1, hp1, hstep⟩ := client_loop_status_turn T w p buf hset
      obtain ⟨res, hleft, hres⟩ := ih w1 (read_stdin p.rd buf).2
        (by rw [he1, hexit]; rfl) (Or.inr hp1)
      refine ⟨res, hleft, fun rest => ?_⟩
      rw [List.cons_append, hstep]
      exact hres rest
    · have hclear : (deliver p.in_condition (deliver p.during_read w)).print_st_flag
          = false := by
        simpa using hset
      exact ⟨_, rfl, fun rest => by
        rw [List.cons_append]
        exact client_loop_stop_turn T w p _ buf hexit hclear⟩

theorem main_after_mode (T : Transport σ) (listen_flag : Bool) (cleanup_ret : Int)
    (its : List Iter) (w w2 : World σ) (buf : List Byte)
    (h : (if listen_flag then server_mode T its w buf else client_mode T its w buf)
      = some (0, w2)) :
    ∃ w3, main T listen_flag cleanup_ret its w buf = some (EXIT_SUCCESS, w3) ∧
      w3.net = w2.net ∧ w3.total_recv_bytes = w2.total_recv_bytes ∧
      w3.total_sent_bytes = w2.total_sent_bytes ∧
      w3.trace = w2.trace ++
        (if cleanup_ret ≠ 0 then [Event.stderr Diag.cleanup] else []) ++
        (if w2.print_on_exit = true then
          [Event.print_totals w2.total_recv_bytes w2.total_sent_bytes] else []) := by
  unfold main
  rw [h]
  simp only [ne_eq, not_true_eq_false, if_false]
  by_cases hc : cleanup_ret = 0 <;> by_cases ho : w2.print_on_exit = true <;>
    simp [hc, ho, print_total_sent_recvd_bytes]

theorem status_turns_keep_reading (T : Transport σ) (n : Nat) :
    ∀ (w : World σ) (buf : List Byte),
      (server_loop T (List.replicate n (status_turn ReadRes.fail)) w buf).1 =
        LoopEnd.reading := by
  induction n with
  | zero => intro w buf; rfl
  | succ k ih =>
    intro w buf
    rw [List.replicate_succ, server_loop_status_turn T w _ _ buf
      (by simp [status_turn, deliver_frame])]
    exact ih _ _

theorem mode_waits (T : Transport σ) (its : List Iter) (w : World σ) (buf : List Byte)
    (h : (server_loop T its w buf).1 = LoopEnd.reading) (cleanup_ret : Int) :
    server_mode T its w buf = none ∧ main T true cleanup_ret its w buf = none := by
  have hs : server_mode T its w buf = none := by
    unfold server_mode
    cases hl : server_loop T its w buf with
    | mk e rest =>
      cases rest with
      | mk b w1 =>
        rw [hl] at h
        simp only at h
        subst h
        rfl
  refine ⟨hs, ?_⟩
  unfold main
  simp [hs]

/-- C8, as stated, fails: setting `exit_flag` does not by itself end the
outbound loop. On the connection whose peer has closed `recv_handler` signals
the main thread and the handler sets `exit_flag`; yet as long as no `read`
has returned the loop is not left (`server_mode` and `main` have not
returned), and as long as every `read` is interrupted by a status request the
loop keeps serving the request and reading again, for any number of turns. -/
theorem C8_peer_loss_shutdown_counterexample :
    (recv_handler stream 0 1024 1 peer_gone []).map (fun r => (r.1, kills r.2.2.trace)) =
      some (Ending.returned, [0]) ∧
    (signal_handler peer_gone).exit_flag = true ∧
    server_mode stream [] (signal_handler peer_gone) [] = none ∧
    main stream true 0 [] (signal_handler peer_gone) [] = none ∧
    (∀ n, server_mode stream (List.replicate n (status_turn ReadRes.fail))
        (signal_handler peer_gone) [] = none ∧
      main stream true 0 (List.replicate n (status_turn ReadRes.fail))
        (signal_handler peer_gone) [] = none) ∧
    stdin_reads (server_loop stream (List.replicate 3 (status_turn ReadRes.fail))
        (signal_handler peer_gone) []).2.2.trace = [-1, -1, -1] := by
  refine ⟨by decide, rfl, by decide, by decide, fun n => ?_, by decide⟩
  exact mode_waits stream _ _ _ (status_turns_keep_reading stream n _ _) 0

/-- C8, amended. When a transport read of `recv_msg` fails in `recv_handler`
with `UDT_ERR_CONN_LOST`, `recv_handler` sends SIGTERM to the main thread once
(`pthread_kill` returning 0) and returns, and `recv_msg` has printed no
diagnostic line; for any other code it returns without signalling. The
handler of SIGTERM sets `exit_flag`. With `exit_flag` set, the outbound loop
of either mode is left at the first `read` that returns in a calm turn (no
status request reaches the loop condition), a status request pending before
it costing one turn more; whatever turns would follow are not used. The mode
then closes the connection and returns 0, and `main` returns `EXIT_SUCCESS`
in the world the mode left, after the diagnostic of a failed `udt_cleanup`
and the counters asked for by `-s`. -/
theorem C8_peer_loss_shutdown (T : Transport σ) (w : World σ) (buffer : List Byte)
    (size code : Int) (fuel : Nat) (hfail : read_fails T w size code)
    (wm : World σ) (pre : List Iter) (it : Iter) (buf : List Byte)
    (hcalm : it.calm) (hpre : pre ≠ [] ∨ wm.print_st_flag = false) :
    (code = UDT_ERR_CONN_LOST →
      ∃ b w1 l, recv_handler T 0 size (fuel + 1) w buffer = some (Ending.returned, b, w1) ∧
        w1.trace = w.trace ++ l ∧ kills l = [0] ∧ diags l = []) ∧
    (code ≠ UDT_ERR_CONN_LOST → ∀ kill_ret,
      ∃ b w1 l, recv_handler T kill_ret size (fuel + 1) w buffer
          = some (Ending.returned, b, w1) ∧
        w1.trace = w.trace ++ l ∧ kills l = []) ∧
    (signal_handler wm).exit_flag = true ∧
    (∃ w2, w2.trace.getLast? = some Event.udt_close ∧
      ∀ rest, server_mode T (pre ++ it :: rest) (signal_handler wm) buf = some (0, w2) ∧
        ∀ cleanup_ret, ∃ w3, main T true cleanup_ret (pre ++ it :: rest) (signal_handler wm) buf =
            some (EXIT_SUCCESS, w3) ∧
          w3.net = w2.net ∧ w3.total_recv_bytes = w2.total_recv_bytes ∧
          w3.total_sent_bytes = w2.total_sent_bytes ∧
          w3.trace = w2.trace ++
            (if cleanup_ret ≠ 0 then [Event.stderr Diag.cleanup] else []) ++
            (if w2.print_on_exit = true then
              [Event.print_totals w2.total_recv_bytes w2.total_sent_bytes] else [])) ∧
    (∃ w2, w2.trace.getLast? = some Event.udt_close ∧
      ∀ rest, client_mode T (pre ++ it :: rest) (signal_handler wm) buf = some (0, w2) ∧
        ∀ cleanup_ret, ∃ w3, main T false cleanup_ret (pre ++ it :: rest) (signal_handler wm) buf =
            some (EXIT_SUCCESS, w3) ∧
          w3.net = w2.net ∧ w3.total_recv_bytes = w2.total_recv_bytes ∧
          w3.total_sent_bytes = w2.total_sent_bytes ∧
          w3.trace = w2.trace ++
            (if cleanup_ret ≠ 0 then [Event.stderr Diag.cleanup] else []) ++
            (if w2.print_on_exit = true then
              [Event.print_totals w2.total_recv_bytes w2.total_sent_bytes] else [])) := by
  obtain ⟨b, w1, l, hrm, hcode, htr, hk, hd⟩ := recv_msg_fails T w buffer size code hfail
  refine ⟨?_, ?_, rfl, ?_, ?_⟩
  · intro hlost
    rw [recv_handler, hrm]
    simp only [if_true, hcode, hlost, ne_eq, not_true_eq_false, if_false]
    refine ⟨_, _, l ++ [Event.recv_msg (-1), Event.pthread_kill 0], rfl, ?_, ?_, ?_⟩
    · simp [htr]
    · simp [kills, List.filterMap_append] at hk ⊢; exact hk
    · have := hd hlost
      simp [diags, List.filterMap_append] at this ⊢; exact this
  · intro hother kill_ret
    rw [recv_handler, hrm]
    simp only [if_true, hcode, hother, if_false]
    refine ⟨_, _, l ++ [Event.recv_msg (-1)], rfl, ?_, ?_⟩
    · simp [htr]
    · simp [kills, List.filterMap_append] at hk ⊢; exact hk
  · obtain ⟨res, hleft, hres⟩ := server_loop_leaves_at T it hcalm pre (signal_handler wm) buf
      rfl hpre
    obtain ⟨e, b2, w2⟩ := res
    simp only at hleft
    subst hleft
    have hmode : ∀ rest, server_mode T (pre ++ it :: rest) (signal_handler wm) buf =
        some (0, { w2 with trace := w2.trace ++ [Event.udt_close] }) := by
      intro rest
      unfold server_mode
      rw [hres rest]
    refine ⟨_, by simp, fun rest => ⟨hmode rest, fun cleanup_ret => ?_⟩⟩
    exact main_after_mode T true cleanup_ret _ _ _ buf (by simp only [if_true]; exact hmode rest)
  · obtain ⟨res, hleft, hres⟩ := client_loop_leaves_at T it hcalm pre (signal_handler wm) buf
      rfl hpre
    obtain ⟨e, b2, w2⟩ := res
    simp only at hleft
    subst hleft
    have hmode : ∀ rest, client_mode T (pre ++ it :: rest) (signal_handler wm) buf =
        some (0, { w2 with trace := w2.trace ++ [Event.udt_close] }) := by
      intro rest
      unfold client_mode
      rw [hres rest]
    refine ⟨_, by simp, fun rest => ⟨hmode rest, fun cleanup_ret => ?_⟩⟩
    exact main_after_mode T false cleanup_ret _ _ _ buf
      (by simp only [Bool.false_eq_true, if_false]; exact hmode rest)

/-- C8 amended, on the byte stream whose peer has closed: `recv_handler`
signals the main thread and returns without a diagnostic line; the main
thread, a status request pending and its next `read` failing, serves the
request, leaves the loop at that `read`, and `main` returns `EXIT_SUCCESS`. -/
theorem C8_peer_loss_shutdown_witness :
    (∃ b w1 l, recv_handler stream 0 1024 (0 + 1) peer_gone [] =
        some (Ending.returned, b, w1) ∧
      w1.trace = peer_gone.trace ++ l ∧ kills l = [0] ∧ diags l = []) ∧
    (∃ w2, w2.trace.getLast? = some Event.udt_close ∧
      ∀ rest, server_mode stream
          ([status_turn ReadRes.fail] ++ plain_turn ReadRes.fail :: rest)
          (signal_handler peer_gone) [] = some (0, w2) ∧
        ∀ cleanup_ret, ∃ w3, main stream true cleanup_ret
            ([status_turn ReadRes.fail] ++ plain_turn ReadRes.fail :: rest)
            (signal_handler peer_gone) [] = some (EXIT_SUCCESS, w3) ∧
          w3.net = w2.net ∧ w3.total_recv_bytes = w2.total_recv_bytes ∧
          w3.total_sent_bytes = w2.total_sent_bytes ∧
          w3.trace = w2.trace ++
            (if cleanup_ret ≠ 0 then [Event.stderr Diag.cleanup] else []) ++
            (if w2.print_on_exit = true then
              [Event.print_totals w2.total_recv_bytes w2.total_sent_bytes] else [])) :=
  ⟨(C8_peer_loss_shutdown stream peer_gone [] 1024 2001 0 (Or.inl ⟨[], by decide⟩)
      peer_gone [status_turn ReadRes.fail] (plain_turn ReadRes.fail) [] ⟨rfl, rfl⟩
      (Or.inl (by decide))).1 rfl,
   (C8_peer_loss_shutdown stream peer_gone [] 1024 2001 0 (Or.inl ⟨[], by decide⟩)
      peer_gone [status_turn ReadRes.fail] (plain_turn ReadRes.fail) [] ⟨rfl, rfl⟩
      (Or.inl (by decide))).2.2.2.1⟩

end Udtcat
